import Mathlib

/-!
Shallow embedding of the CHIP-8 emulator/assembler (massung/CHIP-8, Go).

The virtual machine state and each instruction handler are translated from
`src/chip8/chip8.go`; the assembler's `assembleALIGN` from the assembler
source.  Go machine integers are modelled as `Nat` (bytes take explicit
`% 256` / `&&& 0xFF` wherever Go's `byte` type would truncate); Go `int8`
values that can be negative (sprite coordinates) are modelled as `Int`.
Go code that can panic (array/slice indexing out of range, stack
overflow/underflow, division by zero, the unimplemented SYS call) is
modelled with `Option`, `none` standing for a runtime panic.
-/

set_option linter.unusedVariables false

/-- Breakpoint record, from `src/chip8/chip8.go` (`type Breakpoint struct`). -/
structure Breakpoint where
  Address : Int
  Reason : String
  Conditional : Bool
  Once : Bool
deriving DecidableEq, Repr

/-- The CHIP-8 virtual machine state, from `src/chip8/chip8.go`
(`type CHIP_8 struct`).  Fixed-size Go arrays are modelled as functions
from index to value (`ROM`, `Memory`: 0x1000 bytes; `Video`: 0x440 bytes;
`Stack`: 16 cells; `V`: 16 bytes; `R`: 8 bytes; `Keys`: 16 bools); the Go
`map[int]Breakpoint` as `Nat → Option Breakpoint`; the wait-key pointer
`W *byte` (always `&vm.V[i]` for some register index) as `Option Nat`
holding the register index. -/
structure CHIP_8 where
  ROM : Nat → Nat
  Memory : Nat → Nat
  Video : Nat → Nat
  Stack : Nat → Nat
  SP : Nat
  PC : Nat
  Base : Nat
  Size : Nat
  I : Nat
  V : Nat → Nat
  R : Nat → Nat
  DT : Int
  ST : Int
  Clock : Int
  Cycles : Int
  Speed : Int
  W : Option Nat
  Keys : Nat → Bool
  Pitch : Nat
  Breakpoints : Nat → Option Breakpoint

instance : Inhabited CHIP_8 :=
  ⟨{ ROM := fun _ => 0, Memory := fun _ => 0, Video := fun _ => 0,
     Stack := fun _ => 0, SP := 0, PC := 0, Base := 0, Size := 0, I := 0,
     V := fun _ => 0, R := fun _ => 0, DT := 0, ST := 0, Clock := 0,
     Cycles := 0, Speed := 0, W := none, Keys := fun _ => false, Pitch := 0,
     Breakpoints := fun _ => none }⟩

/-- Modelled from the spec: the 512-byte boot blob `EmulatorROM` copied
into `[0, 0x200)` of the pristine ROM image by `LoadROM` is not part of
the provided sources (only its use site is).  Spec §9 says to treat the
boot ROM as an opaque data blob; no claim depends on its contents, only
on the fact that every entry is a byte.  It is modelled as the all-zero
blob. -/
def EmulatorROM : Nat → Nat := fun _ => 0

namespace CHIP_8

/-- Reset the CHIP-8 virtual machine memory (`Reset` in chip8.go).
`now` stands for `time.Now().UnixNano()`. -/
def Reset (now : Int) (vm : CHIP_8) : CHIP_8 :=
  { vm with
    Memory := vm.ROM
    Video := fun _ => 0
    Keys := fun _ => false
    PC := vm.Base
    SP := 0
    I := 0
    V := fun _ => 0
    R := fun _ => 0
    DT := 0
    ST := 0
    Clock := now
    Cycles := 0
    W := none
    Pitch := 8 }

/-- Load a ROM from a byte array and return a new CHIP-8 virtual machine
(`LoadROM` in chip8.go).  `none` models the returned error when the
program does not fit in memory.  The two `copy` calls build the pristine
ROM image: `EmulatorROM` (512 bytes) below 0x200, the program at `base`,
zero elsewhere (composite literals zero-initialize in Go). -/
def LoadROM (program : List Nat) (eti : Bool) (now : Int) : Option CHIP_8 :=
  let base : Nat := if eti then 0x600 else 0x200
  if program.length > 0x1000 - base then
    none
  else
    some (Reset now
      { ROM := fun i =>
          if i < 0x200 then EmulatorROM i
          else if base ≤ i ∧ i < base + program.length then program.getD (i - base) 0
          else 0
        Memory := fun _ => 0
        Video := fun _ => 0
        Stack := fun _ => 0
        SP := 0
        PC := 0
        Base := base
        Size := program.length
        I := 0
        V := fun _ => 0
        R := fun _ => 0
        DT := 0
        ST := 0
        Clock := 0
        Cycles := 0
        Speed := 700
        W := none
        Keys := fun _ => false
        Pitch := 0
        Breakpoints := fun _ => none })

/-- Converts a CHIP-8 delay timer register to a byte (`GetDelayTimer`).
The Go `uint8(...)` conversion truncates modulo 256. -/
def GetDelayTimer (now : Int) (vm : CHIP_8) : Nat :=
  if now < vm.DT then ((vm.DT - now) * 60 / 1000000000).toNat % 256 else 0

/-- Clear the video display memory (`cls`). -/
def cls (vm : CHIP_8) : CHIP_8 :=
  { vm with Video := fun _ => 0 }

/-- System call an RCA 1802 program at an address (`sys`): always panics. -/
def sys (vm : CHIP_8) (address : Nat) : Option CHIP_8 :=
  none

/-- Call a subroutine at address (`call`); panics on stack overflow. -/
def call (vm : CHIP_8) (address : Nat) : Option CHIP_8 :=
  if vm.SP ≥ 16 then
    none
  else
    some { vm with
      Stack := fun i => if i = vm.SP then vm.PC else vm.Stack i
      SP := vm.SP + 1
      PC := address }

/-- Return from subroutine (`ret`); panics on stack underflow. -/
def ret (vm : CHIP_8) : Option CHIP_8 :=
  if vm.SP = 0 then
    none
  else
    some { vm with SP := vm.SP - 1, PC := vm.Stack (vm.SP - 1) }

/-- Exit the interpreter (`exit`): PC ← PC − 2. -/
def exit (vm : CHIP_8) : CHIP_8 :=
  { vm with PC := vm.PC - 2 }

/-- Set low res mode (`low`). -/
def low (vm : CHIP_8) : CHIP_8 :=
  { vm with Pitch := 8 }

/-- Set high res mode (`high`). -/
def high (vm : CHIP_8) : CHIP_8 :=
  { vm with Pitch := 16 }

/-- Scroll n pixels up (`scrollUp`).  The `copy` shifts the framebuffer
and the trailing loop wipes the bottom-most pixels; slicing
`vm.Video[n*pitch:]` (and the wipe loop's starting index
`0x400 - n*pitch`) panics when `n*pitch` is out of range. -/
def scrollUp (vm : CHIP_8) (n : Nat) : Option CHIP_8 :=
  let n := if vm.Pitch = 8 then n >>> 1 else n
  let np := n * vm.Pitch
  if np ≤ 0x400 then
    some { vm with Video := fun i =>
      if 0x400 - np ≤ i ∧ i < 0x400 then 0
      else if i < 0x440 - np then vm.Video (i + np)
      else vm.Video i }
  else none

/-- Scroll n pixels down (`scrollDown`). -/
def scrollDown (vm : CHIP_8) (n : Nat) : Option CHIP_8 :=
  let n := if vm.Pitch = 8 then n >>> 1 else n
  let np := n * vm.Pitch
  if np ≤ 0x440 then
    some { vm with Video := fun i =>
      if i < np then 0
      else if i < 0x440 then vm.Video (i - np)
      else vm.Video i }
  else none

/-- Scroll pixels right (`scrollRight`).  The loop runs from 0x3FF down
to 0, so `Video[i-1]` is read before it is itself shifted; the loop is
therefore a simultaneous update.  Go's `vm.Video[i-1] << (8 - shift)`
computes `8 - shift` in `uint`: when `shift > 8` it wraps to an enormous
count and the byte shift yields 0. -/
def scrollRight (vm : CHIP_8) : Option CHIP_8 :=
  let shift := vm.Pitch >>> 2
  some { vm with Video := fun i =>
    if i ≤ 0x3FF then
      (vm.Video i >>> shift) |||
        (if Nat.land i (vm.Pitch - 1) > 0 then
          (if shift > 8 then 0 else (vm.Video (i - 1) <<< (8 - shift)) &&& 0xFF)
        else 0)
    else vm.Video i }

/-- Scroll pixels left (`scrollLeft`).  The loop ascends, so `Video[i+1]`
is read before it is shifted: a simultaneous update. -/
def scrollLeft (vm : CHIP_8) : Option CHIP_8 :=
  let shift := vm.Pitch >>> 2
  some { vm with Video := fun i =>
    if i < 0x400 then
      ((vm.Video i <<< shift) &&& 0xFF) |||
        (if Nat.land i (vm.Pitch - 1) < vm.Pitch - 1 then
          (if shift > 8 then 0 else vm.Video (i + 1) >>> (8 - shift))
        else 0)
    else vm.Video i }

/-- Jump to address (`jump`). -/
def jump (vm : CHIP_8) (address : Nat) : CHIP_8 :=
  { vm with PC := address }

/-- Jump to address + v0 (`jumpV0`). -/
def jumpV0 (vm : CHIP_8) (address : Nat) : CHIP_8 :=
  { vm with PC := address + vm.V 0 }

/-- Skip next instruction if vx == n (`skipIf`). -/
def skipIf (vm : CHIP_8) (x : Nat) (b : Nat) : CHIP_8 :=
  if vm.V x = b then { vm with PC := vm.PC + 2 } else vm

/-- Skip next instruction if vx != n (`skipIfNot`). -/
def skipIfNot (vm : CHIP_8) (x : Nat) (b : Nat) : CHIP_8 :=
  if vm.V x ≠ b then { vm with PC := vm.PC + 2 } else vm

/-- Skip next instruction if vx == vy (`skipIfXY`). -/
def skipIfXY (vm : CHIP_8) (x y : Nat) : CHIP_8 :=
  if vm.V x = vm.V y then { vm with PC := vm.PC + 2 } else vm

/-- Skip next instruction if vx != vy (`skipIfNotXY`). -/
def skipIfNotXY (vm : CHIP_8) (x y : Nat) : CHIP_8 :=
  if vm.V x ≠ vm.V y then { vm with PC := vm.PC + 2 } else vm

/-- Skip next instruction if vx > vy (`skipIfGreater`). -/
def skipIfGreater (vm : CHIP_8) (x y : Nat) : CHIP_8 :=
  if vm.V x > vm.V y then { vm with PC := vm.PC + 2 } else vm

/-- Skip next instruction if vx < vy (`skipIfLess`). -/
def skipIfLess (vm : CHIP_8) (x y : Nat) : CHIP_8 :=
  if vm.V x < vm.V y then { vm with PC := vm.PC + 2 } else vm

/-- Skip next instruction if key(vx) is pressed (`skipIfPressed`).
`vm.Keys[vm.V[x]]` panics when `V[x] ≥ 16`. -/
def skipIfPressed (vm : CHIP_8) (x : Nat) : Option CHIP_8 :=
  if vm.V x < 16 then
    some (if vm.Keys (vm.V x) then { vm with PC := vm.PC + 2 } else vm)
  else none

/-- Skip next instruction if key(vx) is not pressed (`skipIfNotPressed`). -/
def skipIfNotPressed (vm : CHIP_8) (x : Nat) : Option CHIP_8 :=
  if vm.V x < 16 then
    some (if vm.Keys (vm.V x) then vm else { vm with PC := vm.PC + 2 })
  else none

/-- Load n into vx (`loadX`). -/
def loadX (vm : CHIP_8) (x : Nat) (b : Nat) : CHIP_8 :=
  { vm with V := fun i => if i = x then b else vm.V i }

/-- Load y into vx (`loadXY`). -/
def loadXY (vm : CHIP_8) (x y : Nat) : CHIP_8 :=
  { vm with V := fun i => if i = x then vm.V y else vm.V i }

/-- Load delay timer into vx (`loadXDT`). -/
def loadXDT (now : Int) (vm : CHIP_8) (x : Nat) : CHIP_8 :=
  { vm with V := fun i => if i = x then GetDelayTimer now vm else vm.V i }

/-- Load vx into delay timer (`loadDTX`). -/
def loadDTX (now : Int) (vm : CHIP_8) (x : Nat) : CHIP_8 :=
  { vm with DT := now + (vm.V x : Int) * 1000000000 / 60 }

/-- Load vx into sound timer (`loadSTX`). -/
def loadSTX (now : Int) (vm : CHIP_8) (x : Nat) : CHIP_8 :=
  { vm with ST := now + (vm.V x : Int) * 1000000000 / 60 }

/-- Load vx with next key hit, blocking (`loadXK`): records which V
register the next key press should be stored into. -/
def loadXK (vm : CHIP_8) (x : Nat) : CHIP_8 :=
  { vm with W := some x }

/-- Load address register (`loadI`). -/
def loadI (vm : CHIP_8) (address : Nat) : CHIP_8 :=
  { vm with I := address }

/-- One double-dabble adjustment plus shift for `bcd`/`bcd16`
(the body of their loops, with `digits` BCD columns checked). -/
def bcdAdjust (digits : Nat) (b : Nat) : Nat :=
  (List.range digits).foldl
    (fun b d => if (b >>> (4 * d)) &&& 0xF ≥ 5 then b + (3 <<< (4 * d)) else b) b

/-- Load address with 8-bit BCD of vx (`bcd`); the three memory writes
panic when `I + 2 ≥ 0x1000`. -/
def bcd (vm : CHIP_8) (x : Nat) : Option CHIP_8 :=
  let n := vm.V x
  let b := (List.range 8).foldl
    (fun b i => (bcdAdjust 3 b <<< 1) ||| ((n >>> (7 - i)) &&& 1)) 0
  if vm.I + 2 < 0x1000 then
    some { vm with Memory := fun a =>
      if a = vm.I + 0 then ((b >>> 8) &&& 0xFF) &&& 0xF
      else if a = vm.I + 1 then ((b >>> 4) &&& 0xFF) &&& 0xF
      else if a = vm.I + 2 then ((b >>> 0) &&& 0xFF) &&& 0xF
      else vm.Memory a }
  else none

/-- Load address with 16-bit BCD of vx, vy (`bcd16`); the five memory
writes panic when `I + 4 ≥ 0x1000`. -/
def bcd16 (vm : CHIP_8) (x y : Nat) : Option CHIP_8 :=
  let n := (vm.V x <<< 8) ||| vm.V y
  let b := (List.range 16).foldl
    (fun b i => (bcdAdjust 5 b <<< 1) ||| ((n >>> (15 - i)) &&& 1)) 0
  if vm.I + 4 < 0x1000 then
    some { vm with Memory := fun a =>
      if a = vm.I + 0 then ((b >>> 16) &&& 0xFF) &&& 0xF
      else if a = vm.I + 1 then ((b >>> 12) &&& 0xFF) &&& 0xF
      else if a = vm.I + 2 then ((b >>> 8) &&& 0xFF) &&& 0xF
      else if a = vm.I + 3 then ((b >>> 4) &&& 0xFF) &&& 0xF
      else if a = vm.I + 4 then ((b >>> 0) &&& 0xFF) &&& 0xF
      else vm.Memory a }
  else none

/-- Load font sprite for vx into I (`loadF`). -/
def loadF (vm : CHIP_8) (x : Nat) : CHIP_8 :=
  { vm with I := vm.V x * 5 }

/-- Load high font sprite for vx into I (`loadHF`). -/
def loadHF (vm : CHIP_8) (x : Nat) : CHIP_8 :=
  { vm with I := 0x50 + vm.V x * 10 }

/-- Load ASCII font sprite for vx into I and length into v0
(`loadASCII`).  All indices are in range for byte-valued state, so the
handler is total. -/
def loadASCII (vm : CHIP_8) (x : Nat) : CHIP_8 :=
  let c := 0x100 + vm.V x * 3
  let ab := vm.Memory c
  let cd := vm.Memory (c + 1)
  let ef := vm.Memory (c + 2)
  let mem1 := fun a =>
    if a = 0x1C0 then vm.Memory (0xF0 + (ef &&& 0xF))
    else if a = 0x1C1 then vm.Memory (0xF0 + (cd >>> 4))
    else if a = 0x1C2 then vm.Memory (0xF0 + (cd &&& 0xF))
    else if a = 0x1C3 then vm.Memory (0xF0 + (ab >>> 4))
    else if a = 0x1C4 then vm.Memory (0xF0 + (ab &&& 0xF))
    else vm.Memory a
  { vm with
    Memory := mem1
    V := fun i => if i = 0 then ef >>> 4 else vm.V i
    I := 0x1C0 }

/-- Bitwise or vx with vy into vx (`or`). -/
def or (vm : CHIP_8) (x y : Nat) : CHIP_8 :=
  { vm with V := fun i => if i = x then vm.V x ||| vm.V y else vm.V i }

/-- Bitwise and vx with vy into vx (`and`). -/
def and (vm : CHIP_8) (x y : Nat) : CHIP_8 :=
  { vm with V := fun i => if i = x then vm.V x &&& vm.V y else vm.V i }

/-- Bitwise xor vx with vy into vx (`xor`). -/
def xor (vm : CHIP_8) (x y : Nat) : CHIP_8 :=
  { vm with V := fun i => if i = x then vm.V x ^^^ vm.V y else vm.V i }

/-- Bitwise shift vx left 1 bit, VF ← MSB of vx before the shift
(`shl`).  The two assignments are sequential: when `x = 0xF` the second
overwrites the flag just stored. -/
def shl (vm : CHIP_8) (x : Nat) : CHIP_8 :=
  let v1 := fun i => if i = 0xF then vm.V x >>> 7 else vm.V i
  { vm with V := fun i => if i = x then (v1 x <<< 1) % 256 else v1 i }

/-- Bitwise shift vx right 1 bit, VF ← LSB of vx before the shift
(`shr`). -/
def shr (vm : CHIP_8) (x : Nat) : CHIP_8 :=
  let v1 := fun i => if i = 0xF then vm.V x &&& 1 else vm.V i
  { vm with V := fun i => if i = x then v1 x >>> 1 else v1 i }

/-- Add n to vx (`addX`); Go byte addition wraps modulo 256. -/
def addX (vm : CHIP_8) (x : Nat) (b : Nat) : CHIP_8 :=
  { vm with V := fun i => if i = x then (vm.V x + b) % 256 else vm.V i }

/-- Add vy to vx and set carry (`addXY`).  The sum is stored first; the
carry test then compares the stored sum against `vm.V[y]` as it reads
after the store. -/
def addXY (vm : CHIP_8) (x y : Nat) : CHIP_8 :=
  let v1 := fun i => if i = x then (vm.V x + vm.V y) % 256 else vm.V i
  { vm with V := fun i => if i = 0xF then (if v1 x < v1 y then 1 else 0) else v1 i }

/-- Add vx to I, VF ← 1 iff the new I ≥ 0x1000 (`addIX`). -/
def addIX (vm : CHIP_8) (x : Nat) : CHIP_8 :=
  let newI := vm.I + vm.V x
  { vm with
    I := newI
    V := fun i => if i = 0xF then (if newI ≥ 0x1000 then 1 else 0) else vm.V i }

/-- Subtract vy from vx, carry set first if no borrow (`subXY`).  The
flag is written before the subtract, so the subtract reads `V[x]`/`V[y]`
as they stand after the flag store. -/
def subXY (vm : CHIP_8) (x y : Nat) : CHIP_8 :=
  let v1 := fun i =>
    if i = 0xF then (if vm.V x ≥ vm.V y then 1 else 0) else vm.V i
  { vm with V := fun i => if i = x then (v1 x + 256 - v1 y % 256) % 256 else v1 i }

/-- Subtract vx from vy into vx, carry set first if no borrow
(`subYX`). -/
def subYX (vm : CHIP_8) (x y : Nat) : CHIP_8 :=
  let v1 := fun i =>
    if i = 0xF then (if vm.V y ≥ vm.V x then 1 else 0) else vm.V i
  { vm with V := fun i => if i = x then (v1 y + 256 - v1 x % 256) % 256 else v1 i }

/-- Multiply vx and vy; VF receives the most significant byte
(`mulXY`).  The tuple assignment writes `V[0xF]` first, then `V[x]`. -/
def mulXY (vm : CHIP_8) (x y : Nat) : CHIP_8 :=
  let r := vm.V x * vm.V y
  let v1 := fun i => if i = 0xF then (r >>> 8) &&& 0xFF else vm.V i
  { vm with V := fun i => if i = x then r &&& 0xFF else v1 i }

/-- Divide vx by vy; VF is set to the remainder (`divXY`).  Go division
by zero panics.  The tuple assignment evaluates both right-hand sides
first, then writes `V[x]`, then `V[0xF]`. -/
def divXY (vm : CHIP_8) (x y : Nat) : Option CHIP_8 :=
  if vm.V y = 0 then none
  else
    let q := vm.V x / vm.V y
    let r := vm.V x % vm.V y
    let v1 := fun i => if i = x then q else vm.V i
    some { vm with V := fun i => if i = 0xF then r else v1 i }

/-- Load a random number masked by n into vx (`loadRandom`); `rnd % 256`
models `rand.Intn(256)`. -/
def loadRandom (vm : CHIP_8) (rnd : Nat) (x : Nat) (b : Nat) : CHIP_8 :=
  { vm with V := fun i => if i = x then Nat.land (rnd % 256) b else vm.V i }

/-- Reinterpret a byte value as Go `int8` (two's complement). -/
def toInt8 (b : Nat) : Int :=
  if b % 256 < 128 then (b % 256 : Nat) else (b % 256 : Nat) - 256

/-- Go `uint(i)` conversion of a (possibly negative) integer:
two's-complement value modulo 2^64. -/
def uintCast (i : Int) : Nat :=
  (i.emod (2 ^ 64)).toNat

/-- One row of `draw`: XOR the sprite byte `s` into video at byte offset
`nn`, collecting cleared pixels into the collision byte.  Reads of
`Video[n]` / `Video[n+1]` after the XOR writes use the updated values,
as in the source. -/
def drawRow (video : Nat → Nat) (c : Nat) (nn : Nat) (s : Nat) (i : Nat) :
    (Nat → Nat) × Nat :=
  let b0 := video nn
  let b1 := video (nn + 1)
  let video1 := fun j => if j = nn then video nn ^^^ (s >>> i) else video j
  let video2 :=
    if i > 0 then
      fun j => if j = nn + 1 then video1 (nn + 1) ^^^ ((s <<< (8 - i)) &&& 0xFF)
               else video1 j
    else video1
  let c1 := c ||| (b0 &&& (video2 nn ^^^ 0xFF))
  let c2 := c1 ||| (b1 &&& (video2 (nn + 1) ^^^ 0xFF))
  (video2, c2)

/-- The row loop of `draw` over the sprite bytes `rows`, threading the
video buffer, the collision byte and the scan-line position `pos`.
Returns `none` for an index panic; the resolution guard `break`s out of
the loop, returning the state so far. -/
def drawLoop (pitch : Nat) (b i : Nat) :
    List Nat → (Nat → Nat) → Nat → Int → Option ((Nat → Nat) × Nat)
  | [], video, c, _ => some (video, c)
  | s :: rest, video, c, pos =>
    if pos ≥ 0 then
      let nn := (uintCast pos + b) % 2 ^ 64
      if (nn ≥ 256 ∧ pitch = 8) ∨ (nn ≥ 1024 ∧ pitch = 16) then
        some (video, c)
      else if nn + 1 < 0x440 then
        let vc := drawRow video c nn s i
        drawLoop pitch b i rest vc.1 vc.2 (pos + (pitch : Int))
      else none
    else
      drawLoop pitch b i rest video c (pos + (pitch : Int))

/-- Draw a sprite in memory to video at x,y with a height of n
(`draw`).  `x`, `y` are Go `int8` values; `b := uint(x >> 3)` uses the
arithmetic shift (floor division by 8) followed by the `uint`
conversion; `i := uint(x & 7)` is the low three bits.  The memory slice
`vm.Memory[a : a+n]` panics unless `a + n ≤ 0x1000`. -/
def draw (vm : CHIP_8) (a : Nat) (x y : Int) (n : Nat) :
    Option ((Nat → Nat) × Nat) :=
  if a + n ≤ 0x1000 then
    let b := uintCast (Int.fdiv x 8)
    let i := (x.emod 8).toNat
    let pos : Int := y * (vm.Pitch : Int)
    drawLoop vm.Pitch b i ((List.range n).map (fun k => vm.Memory (a + k)))
      vm.Video 0 pos
  else none

/-- Draw a sprite at I to video memory at vx, vy (`drawSprite`). -/
def drawSprite (vm : CHIP_8) (x y : Nat) (n : Nat) : Option CHIP_8 :=
  match draw vm vm.I (toInt8 (vm.V x)) (toInt8 (vm.V y)) n with
  | none => none
  | some (video, c) =>
    some { vm with
      Video := video
      V := fun i => if i = 0xF then (if c ≠ 0 then 1 else 0) else vm.V i }

/-- The column loop of `drawSpriteEx`, drawing rows `i`, `i+1`, …, 15. -/
def drawSpriteExLoop (vm : CHIP_8) (a : Nat) (x y : Nat) :
    Nat → (Nat → Nat) → Nat → Option ((Nat → Nat) × Nat)
  | 16, video, c => some (video, c)
  | i, video, c =>
    if h : i < 16 then
      match draw { vm with Video := video } (a + (i <<< 1))
          (toInt8 (vm.V x)) (toInt8 ((vm.V y + i) % 256)) 1 with
      | none => none
      | some (video1, c1) =>
        if vm.Pitch = 16 then
          match draw { vm with Video := video1 } (a + (i <<< 1) + 1)
              (toInt8 ((vm.V x + 8) % 256)) (toInt8 ((vm.V y + i) % 256)) 1 with
          | none => none
          | some (video2, c2) =>
            drawSpriteExLoop vm a x y (i + 1) video2 (c ||| c1 ||| c2)
        else
          drawSpriteExLoop vm a x y (i + 1) video1 (c ||| c1)
    else some (video, c)
  termination_by i _ _ => 16 - i

/-- Draw an extended 16x16 sprite at I to video memory at vx, vy
(`drawSpriteEx`). -/
def drawSpriteEx (vm : CHIP_8) (x y : Nat) : Option CHIP_8 :=
  match drawSpriteExLoop vm vm.I x y 0 vm.Video 0 with
  | none => none
  | some (video, c) =>
    some { vm with
      Video := video
      V := fun i => if i = 0xF then (if c ≠ 0 then 1 else 0) else vm.V i }

/-- Save registers v0..vx to I (`saveRegs`); each write is individually
guarded by `I + i < 0x1000`, so out-of-range writes are skipped. -/
def saveRegs (vm : CHIP_8) (x : Nat) : CHIP_8 :=
  (List.range (x + 1)).foldl
    (fun vm1 i =>
      if vm.I + i < 0x1000 then
        { vm1 with Memory := fun a => if a = vm.I + i then vm.V i else vm1.Memory a }
      else vm1)
    vm

/-- Load registers v0..vx from I (`loadRegs`); out-of-range reads store
zero instead. -/
def loadRegs (vm : CHIP_8) (x : Nat) : CHIP_8 :=
  (List.range (x + 1)).foldl
    (fun vm1 i =>
      { vm1 with V := fun j =>
          if j = i then (if vm.I + i < 0x1000 then vm.Memory (vm.I + i) else 0)
          else vm1.V j })
    vm

/-- Store v0..v7 in the HP-RPL user flags (`storeR`).  Go's
`copy(vm.R[:], vm.V[:x+1])` copies `min 8 (x+1)` bytes and never
fails. -/
def storeR (vm : CHIP_8) (x : Nat) : CHIP_8 :=
  { vm with R := fun i => if i < min 8 (x + 1) then vm.V i else vm.R i }

/-- Read the HP-RPL user flags into v0..vx (`readR`).  Go's
`vm.R[:x+1]` slice panics when `x + 1 > 8`. -/
def readR (vm : CHIP_8) (x : Nat) : Option CHIP_8 :=
  if x + 1 ≤ 8 then
    some { vm with V := fun i => if i < min 16 (x + 1) then vm.R i else vm.V i }
  else none

/-- Fetch the next 16-bit instruction to execute (`fetch`), advancing
the program counter by 2.  `Memory[PC]` / `Memory[PC+1]` panic unless
`PC + 1 < 0x1000`. -/
def fetch (vm : CHIP_8) : Option (CHIP_8 × Nat) :=
  if vm.PC + 1 < 0x1000 then
    some ({ vm with PC := vm.PC + 2 },
      (vm.Memory vm.PC <<< 8) ||| vm.Memory (vm.PC + 1))
  else none

end CHIP_8

/-- The state produced by fetch–decode–execute, before the cycle count
and breakpoint logic of `Step`: either the instruction executed (`ok`),
or the decoder fell through to `Invalid opcode` (`invalid`, carrying the
post-fetch state and the instruction word). -/
inductive ExecResult where
  | ok (vm : CHIP_8)
  | invalid (vm : CHIP_8) (inst : Nat)

/-- The state carried by an `ExecResult`. -/
def ExecResult.state : ExecResult → CHIP_8
  | .ok vm => vm
  | .invalid vm _ => vm

namespace CHIP_8

/-- The instruction decode chain of `Step` in chip8.go, in source
order, applied to the post-fetch state `vm` and the instruction word
`inst`.  `now` models `time.Now().UnixNano()` and `rnd` the random
source.  `none` models a Go panic. -/
def decodeExec (now : Int) (rnd : Nat) (vm : CHIP_8) (inst : Nat) : Option ExecResult :=
    let a := inst &&& 0xFFF
    let b := inst &&& 0xFF
    let n := inst &&& 0xF
    let x := (inst >>> 8) &&& 0xF
    let y := (inst >>> 4) &&& 0xF
    if inst = 0x00E0 then some (.ok (cls vm))
    else if inst = 0x00EE then (ret vm).map .ok
    else if inst = 0x00FB then (scrollRight vm).map .ok
    else if inst = 0x00FC then (scrollLeft vm).map .ok
    else if inst = 0x00FD then some (.ok (exit vm))
    else if inst = 0x00FE then some (.ok (low vm))
    else if inst = 0x00FF then some (.ok (high vm))
    else if inst &&& 0xFFF0 = 0x00B0 then (scrollUp vm n).map .ok
    else if inst &&& 0xFFF0 = 0x00C0 then (scrollDown vm n).map .ok
    else if inst &&& 0xF000 = 0x0000 then (sys vm a).map .ok
    else if inst &&& 0xF000 = 0x1000 then some (.ok (jump vm a))
    else if inst &&& 0xF000 = 0x2000 then (call vm a).map .ok
    else if inst &&& 0xF000 = 0x3000 then some (.ok (skipIf vm x b))
    else if inst &&& 0xF000 = 0x4000 then some (.ok (skipIfNot vm x b))
    else if inst &&& 0xF00F = 0x5000 then some (.ok (skipIfXY vm x y))
    else if inst &&& 0xF00F = 0x5001 then some (.ok (skipIfGreater vm x y))
    else if inst &&& 0xF00F = 0x5002 then some (.ok (skipIfLess vm x y))
    else if inst &&& 0xF000 = 0x6000 then some (.ok (loadX vm x b))
    else if inst &&& 0xF000 = 0x7000 then some (.ok (addX vm x b))
    else if inst &&& 0xF00F = 0x8000 then some (.ok (loadXY vm x y))
    else if inst &&& 0xF00F = 0x8001 then some (.ok (or vm x y))
    else if inst &&& 0xF00F = 0x8002 then some (.ok (and vm x y))
    else if inst &&& 0xF00F = 0x8003 then some (.ok (xor vm x y))
    else if inst &&& 0xF00F = 0x8004 then some (.ok (addXY vm x y))
    else if inst &&& 0xF00F = 0x8005 then some (.ok (subXY vm x y))
    else if inst &&& 0xF00F = 0x8006 then some (.ok (shr vm x))
    else if inst &&& 0xF00F = 0x8007 then some (.ok (subYX vm x y))
    else if inst &&& 0xF00F = 0x800E then some (.ok (shl vm x))
    else if inst &&& 0xF00F = 0x9000 then some (.ok (skipIfNotXY vm x y))
    else if inst &&& 0xF00F = 0x9001 then some (.ok (mulXY vm x y))
    else if inst &&& 0xF00F = 0x9002 then (divXY vm x y).map .ok
    else if inst &&& 0xF0FF = 0xF033 then (bcd vm x).map .ok
    else if inst &&& 0xF00F = 0x9003 then (bcd16 vm x y).map .ok
    else if inst &&& 0xF000 = 0xA000 then some (.ok (loadI vm a))
    else if inst &&& 0xF000 = 0xB000 then some (.ok (jumpV0 vm a))
    else if inst &&& 0xF000 = 0xC000 then some (.ok (loadRandom vm rnd x b))
    else if inst &&& 0xF00F = 0xD000 then (drawSpriteEx vm x y).map .ok
    else if inst &&& 0xF000 = 0xD000 then (drawSprite vm x y n).map .ok
    else if inst &&& 0xF0FF = 0xE09E then (skipIfPressed vm x).map .ok
    else if inst &&& 0xF0FF = 0xE0A1 then (skipIfNotPressed vm x).map .ok
    else if inst &&& 0xF0FF = 0xF007 then some (.ok (loadXDT now vm x))
    else if inst &&& 0xF0FF = 0xF00A then some (.ok (loadXK vm x))
    else if inst &&& 0xF0FF = 0xF015 then some (.ok (loadDTX now vm x))
    else if inst &&& 0xF0FF = 0xF018 then some (.ok (loadSTX now vm x))
    else if inst &&& 0xF0FF = 0xF01E then some (.ok (addIX vm x))
    else if inst &&& 0xF0FF = 0xF029 then some (.ok (loadF vm x))
    else if inst &&& 0xF0FF = 0xF030 then some (.ok (loadHF vm x))
    else if inst &&& 0xF0FF = 0xF055 then some (.ok (saveRegs vm x))
    else if inst &&& 0xF0FF = 0xF065 then some (.ok (loadRegs vm x))
    else if inst &&& 0xF0FF = 0xF075 then some (.ok (storeR vm x))
    else if inst &&& 0xF0FF = 0xF085 then (readR vm x).map .ok
    else if inst &&& 0xF0FF = 0xF094 then some (.ok (loadASCII vm x))
    else some (.invalid vm inst)

/-- Fetch, decode and execute one instruction: the body of `Step` in
chip8.go from the `fetch` call through the decode chain. -/
def execInst (now : Int) (rnd : Nat) (vm0 : CHIP_8) : Option ExecResult :=
  match vm0.fetch with
  | none => none
  | some (vm, inst) => decodeExec now rnd vm inst

end CHIP_8

/-- What `Step` returns: `nil` (ok), a `Breakpoint` (an expected error
value), or the `Invalid opcode` error. -/
inductive Outcome where
  | ok
  | brk (b : Breakpoint)
  | invalidOpcode (inst : Nat)
deriving DecidableEq

namespace CHIP_8

/-- Remove the breakpoint map entry at `addr` (the `delete` builtin). -/
def removeBreakpoint (vm : CHIP_8) (addr : Nat) : CHIP_8 :=
  { vm with Breakpoints := fun a => if a = addr then none else vm.Breakpoints a }

/-- Step the CHIP-8 virtual machine a single instruction (`Step`).  If
waiting for a key, return ok at once.  Otherwise fetch, decode and
execute; on success increment the cycle count and check the breakpoint
map at the new PC: a present entry fires when it is unconditional or
VF ≠ 0, is deleted first when its `Once` flag is set, and is returned;
otherwise `Step` returns ok.  `none` models a Go panic. -/
def Step (now : Int) (rnd : Nat) (vm : CHIP_8) : Option (CHIP_8 × Outcome) :=
  if vm.W.isSome then some (vm, .ok)
  else
    match execInst now rnd vm with
    | none => none
    | some (.invalid vm1 inst) => some (vm1, .invalidOpcode inst)
    | some (.ok vm1) =>
      let vm2 := { vm1 with Cycles := vm1.Cycles + 1 }
      match vm2.Breakpoints vm2.PC with
      | some b =>
        if b.Conditional = false ∨ vm2.V 0xF ≠ 0 then
          some (if b.Once then removeBreakpoint vm2 vm2.PC else vm2, .brk b)
        else some (vm2, .ok)
      | none => some (vm2, .ok)

end CHIP_8

/-- Assemble an ALIGN directive, from `assembleALIGN` in the assembler
source: given the current ROM length and the literal operand `n`
(a Go `int`), the emitted padding bytes.  `n&(n-1) == 0` is the
power-of-two test; `make([]byte, pad)` panics when `pad` is negative,
and the `panic("illegal alignment")` branch fires otherwise — both are
modelled as `none`. -/
def assembleALIGN (romLen : Nat) (n : Int) : Option (List Nat) :=
  if Int.land n (n - 1) = 0 then
    let offset := Int.land (romLen : Int) (n - 1)
    let pad := n - offset
    if pad < 0 then none
    else some (List.replicate pad.toNat 0)
  else none

namespace CHIP_8

/-- State well-formedness carried through execution, with an adjustable
program-counter bound: every byte-typed component is an actual byte,
stack cells hold return addresses at most 0x1000, and the program base
is a 12-bit address.  In Go all of this is enforced by the types
(`byte`, the guarded pushes); here it is an explicit invariant. -/
def InvAt (pcBound : Nat) (vm : CHIP_8) : Prop :=
  vm.PC ≤ pcBound ∧ vm.Base ≤ 0xFFF ∧ (∀ i, vm.Stack i ≤ 0x1000) ∧
  (∀ i, vm.V i < 256) ∧ (∀ i, vm.R i < 256) ∧
  (∀ i, vm.Memory i < 256) ∧ (∀ i, vm.ROM i < 256)

/-- The invariant that survives arbitrary stepping: the PC can reach at
most `0xFFF + 0xFF = 0x10FE` (via `JP V0,NNN`). -/
def Inv (vm : CHIP_8) : Prop := InvAt 0x10FE vm

/-- What one executed instruction preserves: the breakpoint map is
untouched, and well-formedness (from the post-fetch bound `PC ≤ 0x1000`)
is maintained up to the reachable PC bound. -/
def Pres (vm r : CHIP_8) : Prop :=
  r.Breakpoints = vm.Breakpoints ∧ (InvAt 0x1000 vm → InvAt 0x10FE r)

end CHIP_8

/-- Machine states reachable from a freshly loaded ROM by stepping (and
resetting).  The byte hypothesis on the program mirrors Go's `[]byte`
type. -/
inductive Reachable : CHIP_8 → Prop where
  | load (program : List Nat) (eti : Bool) (now : Int) (vm : CHIP_8)
      (hb : ∀ b ∈ program, b < 256)
      (h : CHIP_8.LoadROM program eti now = some vm) : Reachable vm
  | step (now : Int) (rnd : Nat) (vm : CHIP_8) (p : CHIP_8 × Outcome)
      (hv : Reachable vm) (h : CHIP_8.Step now rnd vm = some p) :
      Reachable p.1
  | reset (now : Int) (vm : CHIP_8) (hv : Reachable vm) :
      Reachable (CHIP_8.Reset now vm)

/-- A state used to exhibit the ADD carry bug: `ADD V0,V0` (opcode 8004)
at 0x200 with V0 = 0x80. -/
def c2vm : CHIP_8 :=
  { (default : CHIP_8) with
    PC := 0x200
    Memory := fun i => if i = 0x200 then 0x80 else if i = 0x201 then 0x04 else 0
    V := fun i => if i = 0 then 0x80 else 0 }

/-- The machine state after the `ADD V0,V0` step. -/
def c2post : CHIP_8 := ((CHIP_8.Step 0 0 c2vm).getD ⟨default, Outcome.ok⟩).1

/-- A state used to exhibit the SUB operand-order bug: `SUB V0,VF`
(opcode 80F5) at 0x200 with V0 = 5 and VF = 3. -/
def c3vm : CHIP_8 :=
  { (default : CHIP_8) with
    PC := 0x200
    Memory := fun i => if i = 0x200 then 0x80 else if i = 0x201 then 0xF5 else 0
    V := fun i => if i = 0 then 5 else if i = 15 then 3 else 0 }

/-- The machine state after the `SUB V0,VF` step. -/
def c3post : CHIP_8 := ((CHIP_8.Step 0 0 c3vm).getD ⟨default, Outcome.ok⟩).1

/-- The VM produced by loading the two-byte program `[7, 9]`. -/
def c9vm : CHIP_8 := (CHIP_8.LoadROM [7, 9] false 0).getD default

/-- A state for the C7 witness: I = 0x300 with distinctive V values. -/
def c7vm : CHIP_8 :=
  { (default : CHIP_8) with
    I := 0x300
    V := fun i => if i = 0 then 11 else if i = 1 then 22 else 0
    Memory := fun a => if a = 0x300 then 77 else if a = 0x301 then 88 else 0 }

/-- The state for the C5 witness. -/
def c5wvm : CHIP_8 :=
  { (default : CHIP_8) with
    V := fun i => if i = 0 then 200 else if i = 1 then 100 else 0 }

/-- Program for the C5 counterexample: LD V0,#FF; LD V1,#FF; MUL V0,V1. -/
def c5prog : List Nat := [0x60, 0xFF, 0x61, 0xFF, 0x90, 0x11]

/-- The loaded VM and the three successive post-step states. -/
def c5vm0 : CHIP_8 := (CHIP_8.LoadROM c5prog false 0).getD default

def c5vm1 : CHIP_8 := ((CHIP_8.Step 0 0 c5vm0).getD ⟨default, Outcome.ok⟩).1

def c5vm2 : CHIP_8 := ((CHIP_8.Step 0 0 c5vm1).getD ⟨default, Outcome.ok⟩).1

def c5vm3 : CHIP_8 := ((CHIP_8.Step 0 0 c5vm2).getD ⟨default, Outcome.ok⟩).1

/-- Program for the C4 counterexample: LD V0,#FF; JP V0,#FFF. -/
def c4prog : List Nat := [0x60, 0xFF, 0xBF, 0xFF]

/-- The loaded VM and the two successive post-step states. -/
def c4vm0 : CHIP_8 := (CHIP_8.LoadROM c4prog false 0).getD default

def c4vm1 : CHIP_8 := ((CHIP_8.Step 0 0 c4vm0).getD ⟨default, Outcome.ok⟩).1

def c4vm2 : CHIP_8 := ((CHIP_8.Step 0 0 c4vm1).getD ⟨default, Outcome.ok⟩).1

/-- The breakpoint used by the C1 witness. -/
def c1bp : Breakpoint := ⟨0x202, "test", false, true⟩

/-- A state with `CLS` at 0x200 and a once-breakpoint at 0x202. -/
def c1vm : CHIP_8 :=
  { (default : CHIP_8) with
    PC := 0x200
    Memory := fun i => if i = 0x200 then 0x00 else if i = 0x201 then 0xE0 else 0
    Breakpoints := fun a => if a = 0x202 then some c1bp else none }

/-- The post-execution state for the C1 witness: `CLS` applied after
the fetch advanced the PC to 0x202. -/
def c1vm1 : CHIP_8 := CHIP_8.cls { c1vm with PC := 0x202 }

/-- A state with `LD V8,R` (opcode F885) at 0x200 for the C10 witness. -/
def c10vm : CHIP_8 :=
  { (default : CHIP_8) with
    PC := 0x200
    Memory := fun i => if i = 0x200 then 0xF8 else if i = 0x201 then 0x85 else 0 }


namespace CHIP_8

lemma and_le_right_lt {a m c : Nat} (h : m < c) : a &&& m < c :=
  Nat.lt_of_le_of_lt Nat.and_le_right h

lemma or_lt_256 {a b : Nat} (ha : a < 256) (hb : b < 256) : a ||| b < 256 := by
  have h8 : (256 : Nat) = 2 ^ 8 := by norm_num
  rw [h8] at *
  exact Nat.or_lt_two_pow ha hb

lemma xor_lt_256 {a b : Nat} (ha : a < 256) (hb : b < 256) : a ^^^ b < 256 := by
  have h8 : (256 : Nat) = 2 ^ 8 := by norm_num
  rw [h8] at *
  exact Nat.xor_lt_two_pow ha hb

lemma shiftRight_le (a k : Nat) : a >>> k ≤ a := by
  rw [Nat.shiftRight_eq_div_pow]
  exact Nat.div_le_self a (2 ^ k)

lemma props_cls (vm : CHIP_8) : Pres vm vm.cls :=
  ⟨rfl, fun ⟨h1, h2, h3, h4, h5, h6, h7⟩ =>
    ⟨show vm.PC ≤ 0x10FE by omega, h2, h3, h4, h5, h6, h7⟩⟩

lemma props_low (vm : CHIP_8) : Pres vm vm.low :=
  ⟨rfl, fun ⟨h1, h2, h3, h4, h5, h6, h7⟩ =>
    ⟨show vm.PC ≤ 0x10FE by omega, h2, h3, h4, h5, h6, h7⟩⟩

lemma props_high (vm : CHIP_8) : Pres vm vm.high :=
  ⟨rfl, fun ⟨h1, h2, h3, h4, h5, h6, h7⟩ =>
    ⟨show vm.PC ≤ 0x10FE by omega, h2, h3, h4, h5, h6, h7⟩⟩

lemma props_exit (vm : CHIP_8) : Pres vm vm.exit :=
  ⟨rfl, fun ⟨h1, h2, h3, h4, h5, h6, h7⟩ =>
    ⟨show vm.PC - 2 ≤ 0x10FE by omega, h2, h3, h4, h5, h6, h7⟩⟩

lemma props_loadI (vm : CHIP_8) (a : Nat) : Pres vm (vm.loadI a) :=
  ⟨rfl, fun ⟨h1, h2, h3, h4, h5, h6, h7⟩ =>
    ⟨show vm.PC ≤ 0x10FE by omega, h2, h3, h4, h5, h6, h7⟩⟩

lemma props_loadF (vm : CHIP_8) (x : Nat) : Pres vm (vm.loadF x) :=
  ⟨rfl, fun ⟨h1, h2, h3, h4, h5, h6, h7⟩ =>
    ⟨show vm.PC ≤ 0x10FE by omega, h2, h3, h4, h5, h6, h7⟩⟩

lemma props_loadHF (vm : CHIP_8) (x : Nat) : Pres vm (vm.loadHF x) :=
  ⟨rfl, fun ⟨h1, h2, h3, h4, h5, h6, h7⟩ =>
    ⟨show vm.PC ≤ 0x10FE by omega, h2, h3, h4, h5, h6, h7⟩⟩

lemma props_loadDTX (now : Int) (vm : CHIP_8) (x : Nat) :
    Pres vm (loadDTX now vm x) :=
  ⟨rfl, fun ⟨h1, h2, h3, h4, h5, h6, h7⟩ =>
    ⟨show vm.PC ≤ 0x10FE by omega, h2, h3, h4, h5, h6, h7⟩⟩

lemma props_loadSTX (now : Int) (vm : CHIP_8) (x : Nat) :
    Pres vm (loadSTX now vm x) :=
  ⟨rfl, fun ⟨h1, h2, h3, h4, h5, h6, h7⟩ =>
    ⟨show vm.PC ≤ 0x10FE by omega, h2, h3, h4, h5, h6, h7⟩⟩

lemma props_loadXK (vm : CHIP_8) (x : Nat) : Pres vm (vm.loadXK x) :=
  ⟨rfl, fun ⟨h1, h2, h3, h4, h5, h6, h7⟩ =>
    ⟨show vm.PC ≤ 0x10FE by omega, h2, h3, h4, h5, h6, h7⟩⟩

lemma props_jump (vm : CHIP_8) (a : Nat) (ha : a ≤ 0xFFF) : Pres vm (vm.jump a) :=
  ⟨rfl, fun ⟨h1, h2, h3, h4, h5, h6, h7⟩ =>
    ⟨show a ≤ 0x10FE by omega, h2, h3, h4, h5, h6, h7⟩⟩

lemma props_jumpV0 (vm : CHIP_8) (a : Nat) (ha : a ≤ 0xFFF) :
    Pres vm (vm.jumpV0 a) :=
  ⟨rfl, fun ⟨h1, h2, h3, h4, h5, h6, h7⟩ =>
    ⟨show a + vm.V 0 ≤ 0x10FE by have := h4 0; omega, h2, h3, h4, h5, h6, h7⟩⟩

lemma props_scrollRight (vm vm1 : CHIP_8) (h : vm.scrollRight = some vm1) :
    Pres vm vm1 := by
  unfold scrollRight at h
  injection h with h
  subst h
  exact ⟨rfl, fun ⟨h1, h2, h3, h4, h5, h6, h7⟩ =>
    ⟨show vm.PC ≤ 0x10FE by omega, h2, h3, h4, h5, h6, h7⟩⟩

lemma props_scrollLeft (vm vm1 : CHIP_8) (h : vm.scrollLeft = some vm1) :
    Pres vm vm1 := by
  unfold scrollLeft at h
  injection h with h
  subst h
  exact ⟨rfl, fun ⟨h1, h2, h3, h4, h5, h6, h7⟩ =>
    ⟨show vm.PC ≤ 0x10FE by omega, h2, h3, h4, h5, h6, h7⟩⟩

lemma props_scrollUp (vm : CHIP_8) (n : Nat) (vm1 : CHIP_8)
    (h : vm.scrollUp n = some vm1) : Pres vm vm1 := by
  unfold scrollUp at h
  dsimp only at h
  split at h <;> split at h <;>
    first
      | (injection h with h; subst h;
         exact ⟨rfl, fun ⟨h1, h2, h3, h4, h5, h6, h7⟩ =>
           ⟨show vm.PC ≤ 0x10FE by omega, h2, h3, h4, h5, h6, h7⟩⟩)
      | exact absurd h (by simp)

lemma props_scrollDown (vm : CHIP_8) (n : Nat) (vm1 : CHIP_8)
    (h : vm.scrollDown n = some vm1) : Pres vm vm1 := by
  unfold scrollDown at h
  dsimp only at h
  split at h <;> split at h <;>
    first
      | (injection h with h; subst h;
         exact ⟨rfl, fun ⟨h1, h2, h3, h4, h5, h6, h7⟩ =>
           ⟨show vm.PC ≤ 0x10FE by omega, h2, h3, h4, h5, h6, h7⟩⟩)
      | exact absurd h (by simp)

lemma props_call (vm : CHIP_8) (a : Nat) (vm1 : CHIP_8) (ha : a ≤ 0xFFF)
    (h : vm.call a = some vm1) : Pres vm vm1 := by
  unfold call at h
  split at h
  · exact absurd h (by simp)
  · injection h with h
    subst h
    refine ⟨rfl, fun ⟨h1, h2, h3, h4, h5, h6, h7⟩ =>
      ⟨show a ≤ 0x10FE by omega, h2, ?_, h4, h5, h6, h7⟩⟩
    intro i
    show (if i = vm.SP then vm.PC else vm.Stack i) ≤ 0x1000
    split
    · omega
    · exact h3 i

lemma props_ret (vm vm1 : CHIP_8) (h : vm.ret = some vm1) : Pres vm vm1 := by
  unfold ret at h
  split at h
  · exact absurd h (by simp)
  · injection h with h
    subst h
    exact ⟨rfl, fun ⟨h1, h2, h3, h4, h5, h6, h7⟩ =>
      ⟨show vm.Stack (vm.SP - 1) ≤ 0x10FE by have := h3 (vm.SP - 1); omega,
        h2, h3, h4, h5, h6, h7⟩⟩

lemma props_skipIf (vm : CHIP_8) (x b : Nat) : Pres vm (vm.skipIf x b) := by
  unfold skipIf
  split <;>
    exact ⟨rfl, fun ⟨h1, h2, h3, h4, h5, h6, h7⟩ =>
      ⟨by first | (dsimp only; omega) | omega, h2, h3, h4, h5, h6, h7⟩⟩

lemma props_skipIfNot (vm : CHIP_8) (x b : Nat) : Pres vm (vm.skipIfNot x b) := by
  unfold skipIfNot
  split <;>
    exact ⟨rfl, fun ⟨h1, h2, h3, h4, h5, h6, h7⟩ =>
      ⟨by first | (dsimp only; omega) | omega, h2, h3, h4, h5, h6, h7⟩⟩

lemma props_skipIfXY (vm : CHIP_8) (x y : Nat) : Pres vm (vm.skipIfXY x y) := by
  unfold skipIfXY
  split <;>
    exact ⟨rfl, fun ⟨h1, h2, h3, h4, h5, h6, h7⟩ =>
      ⟨by first | (dsimp only; omega) | omega, h2, h3, h4, h5, h6, h7⟩⟩

lemma props_skipIfNotXY (vm : CHIP_8) (x y : Nat) :
    Pres vm (vm.skipIfNotXY x y) := by
  unfold skipIfNotXY
  split <;>
    exact ⟨rfl, fun ⟨h1, h2, h3, h4, h5, h6, h7⟩ =>
      ⟨by first | (dsimp only; omega) | omega, h2, h3, h4, h5, h6, h7⟩⟩

lemma props_skipIfGreater (vm : CHIP_8) (x y : Nat) :
    Pres vm (vm.skipIfGreater x y) := by
  unfold skipIfGreater
  split <;>
    exact ⟨rfl, fun ⟨h1, h2, h3, h4, h5, h6, h7⟩ =>
      ⟨by first | (dsimp only; omega) | omega, h2, h3, h4, h5, h6, h7⟩⟩

lemma props_skipIfLess (vm : CHIP_8) (x y : Nat) :
    Pres vm (vm.skipIfLess x y) := by
  unfold skipIfLess
  split <;>
    exact ⟨rfl, fun ⟨h1, h2, h3, h4, h5, h6, h7⟩ =>
      ⟨by first | (dsimp only; omega) | omega, h2, h3, h4, h5, h6, h7⟩⟩

lemma props_skipIfPressed (vm : CHIP_8) (x : Nat) (vm1 : CHIP_8)
    (h : vm.skipIfPressed x = some vm1) : Pres vm vm1 := by
  unfold skipIfPressed at h
  split at h
  · injection h with h
    subst h
    split <;>
      exact ⟨rfl, fun ⟨h1, h2, h3, h4, h5, h6, h7⟩ =>
        ⟨by first | (dsimp only; omega) | omega, h2, h3, h4, h5, h6, h7⟩⟩
  · exact absurd h (by simp)

lemma props_skipIfNotPressed (vm : CHIP_8) (x : Nat) (vm1 : CHIP_8)
    (h : vm.skipIfNotPressed x = some vm1) : Pres vm vm1 := by
  unfold skipIfNotPressed at h
  split at h
  · injection h with h
    subst h
    split <;>
      exact ⟨rfl, fun ⟨h1, h2, h3, h4, h5, h6, h7⟩ =>
        ⟨by first | (dsimp only; omega) | omega, h2, h3, h4, h5, h6, h7⟩⟩
  · exact absurd h (by simp)

lemma props_loadX (vm : CHIP_8) (x b : Nat) (hb : b < 256) :
    Pres vm (vm.loadX x b) := by
  refine ⟨rfl, fun ⟨h1, h2, h3, h4, h5, h6, h7⟩ =>
    ⟨by show vm.PC ≤ 0x10FE; omega, h2, h3, fun i => ?_, h5, h6, h7⟩⟩
  show (if i = x then b else vm.V i) < 256
  split
  · exact hb
  · exact h4 i

lemma props_addX (vm : CHIP_8) (x b : Nat) : Pres vm (vm.addX x b) := by
  refine ⟨rfl, fun ⟨h1, h2, h3, h4, h5, h6, h7⟩ =>
    ⟨by show vm.PC ≤ 0x10FE; omega, h2, h3, fun i => ?_, h5, h6, h7⟩⟩
  show (if i = x then (vm.V x + b) % 256 else vm.V i) < 256
  split
  · exact Nat.mod_lt _ (by norm_num)
  · exact h4 i

lemma props_loadXY (vm : CHIP_8) (x y : Nat) : Pres vm (vm.loadXY x y) := by
  refine ⟨rfl, fun ⟨h1, h2, h3, h4, h5, h6, h7⟩ =>
    ⟨by show vm.PC ≤ 0x10FE; omega, h2, h3, fun i => ?_, h5, h6, h7⟩⟩
  show (if i = x then vm.V y else vm.V i) < 256
  split
  · exact h4 y
  · exact h4 i

lemma props_loadXDT (now : Int) (vm : CHIP_8) (x : Nat) :
    Pres vm (loadXDT now vm x) := by
  refine ⟨rfl, fun ⟨h1, h2, h3, h4, h5, h6, h7⟩ =>
    ⟨by show vm.PC ≤ 0x10FE; omega, h2, h3, fun i => ?_, h5, h6, h7⟩⟩
  show (if i = x then GetDelayTimer now vm else vm.V i) < 256
  split
  · unfold GetDelayTimer
    split
    · exact Nat.mod_lt _ (by norm_num)
    · norm_num
  · exact h4 i

lemma props_or (vm : CHIP_8) (x y : Nat) : Pres vm (vm.or x y) := by
  refine ⟨rfl, fun ⟨h1, h2, h3, h4, h5, h6, h7⟩ =>
    ⟨by show vm.PC ≤ 0x10FE; omega, h2, h3, fun i => ?_, h5, h6, h7⟩⟩
  show (if i = x then vm.V x ||| vm.V y else vm.V i) < 256
  split
  · exact or_lt_256 (h4 x) (h4 y)
  · exact h4 i

lemma props_and (vm : CHIP_8) (x y : Nat) : Pres vm (vm.and x y) := by
  refine ⟨rfl, fun ⟨h1, h2, h3, h4, h5, h6, h7⟩ =>
    ⟨by show vm.PC ≤ 0x10FE; omega, h2, h3, fun i => ?_, h5, h6, h7⟩⟩
  show (if i = x then vm.V x &&& vm.V y else vm.V i) < 256
  split
  · exact and_le_right_lt (h4 y)
  · exact h4 i

lemma props_xor (vm : CHIP_8) (x y : Nat) : Pres vm (vm.xor x y) := by
  refine ⟨rfl, fun ⟨h1, h2, h3, h4, h5, h6, h7⟩ =>
    ⟨by show vm.PC ≤ 0x10FE; omega, h2, h3, fun i => ?_, h5, h6, h7⟩⟩
  show (if i = x then vm.V x ^^^ vm.V y else vm.V i) < 256
  split
  · exact xor_lt_256 (h4 x) (h4 y)
  · exact h4 i

lemma props_addXY (vm : CHIP_8) (x y : Nat) : Pres vm (vm.addXY x y) := by
  refine ⟨rfl, fun ⟨h1, h2, h3, h4, h5, h6, h7⟩ =>
    ⟨show vm.PC ≤ 0x10FE by omega, h2, h3, fun i => ?_, h5, h6, h7⟩⟩
  unfold addXY
  dsimp only
  split_ifs <;>
    first
    | omega
    | exact Nat.mod_lt _ (by norm_num)
    | exact h4 i
    | exact h4 x
    | exact h4 y
    | exact h5 i
    | exact Nat.lt_of_le_of_lt (shiftRight_le _ _) (h4 x)
    | exact Nat.lt_of_le_of_lt (shiftRight_le _ _) (and_le_right_lt (by norm_num))
    | exact and_le_right_lt (by norm_num)
    | exact and_le_right_lt (h4 y)
    | exact or_lt_256 (h4 x) (h4 y)
    | exact xor_lt_256 (h4 x) (h4 y)
    | exact Nat.lt_of_le_of_lt (Nat.div_le_self _ _) (h4 x)
    | exact Nat.lt_of_le_of_lt (Nat.mod_le _ _) (h4 x)
    | exact Nat.lt_of_le_of_lt Nat.and_le_left (Nat.mod_lt _ (by norm_num))

lemma props_subXY (vm : CHIP_8) (x y : Nat) : Pres vm (vm.subXY x y) := by
  refine ⟨rfl, fun ⟨h1, h2, h3, h4, h5, h6, h7⟩ =>
    ⟨show vm.PC ≤ 0x10FE by omega, h2, h3, fun i => ?_, h5, h6, h7⟩⟩
  unfold subXY
  dsimp only
  split_ifs <;>
    first
    | omega
    | exact Nat.mod_lt _ (by norm_num)
    | exact h4 i
    | exact h4 x
    | exact h4 y
    | exact h5 i
    | exact Nat.lt_of_le_of_lt (shiftRight_le _ _) (h4 x)
    | exact Nat.lt_of_le_of_lt (shiftRight_le _ _) (and_le_right_lt (by norm_num))
    | exact and_le_right_lt (by norm_num)
    | exact and_le_right_lt (h4 y)
    | exact or_lt_256 (h4 x) (h4 y)
    | exact xor_lt_256 (h4 x) (h4 y)
    | exact Nat.lt_of_le_of_lt (Nat.div_le_self _ _) (h4 x)
    | exact Nat.lt_of_le_of_lt (Nat.mod_le _ _) (h4 x)
    | exact Nat.lt_of_le_of_lt Nat.and_le_left (Nat.mod_lt _ (by norm_num))

lemma props_subYX (vm : CHIP_8) (x y : Nat) : Pres vm (vm.subYX x y) := by
  refine ⟨rfl, fun ⟨h1, h2, h3, h4, h5, h6, h7⟩ =>
    ⟨show vm.PC ≤ 0x10FE by omega, h2, h3, fun i => ?_, h5, h6, h7⟩⟩
  unfold subYX
  dsimp only
  split_ifs <;>
    first
    | omega
    | exact Nat.mod_lt _ (by norm_num)
    | exact h4 i
    | exact h4 x
    | exact h4 y
    | exact h5 i
    | exact Nat.lt_of_le_of_lt (shiftRight_le _ _) (h4 x)
    | exact Nat.lt_of_le_of_lt (shiftRight_le _ _) (and_le_right_lt (by norm_num))
    | exact and_le_right_lt (by norm_num)
    | exact and_le_right_lt (h4 y)
    | exact or_lt_256 (h4 x) (h4 y)
    | exact xor_lt_256 (h4 x) (h4 y)
    | exact Nat.lt_of_le_of_lt (Nat.div_le_self _ _) (h4 x)
    | exact Nat.lt_of_le_of_lt (Nat.mod_le _ _) (h4 x)
    | exact Nat.lt_of_le_of_lt Nat.and_le_left (Nat.mod_lt _ (by norm_num))

lemma props_shl (vm : CHIP_8) (x : Nat) : Pres vm (vm.shl x) := by
  refine ⟨rfl, fun ⟨h1, h2, h3, h4, h5, h6, h7⟩ =>
    ⟨show vm.PC ≤ 0x10FE by omega, h2, h3, fun i => ?_, h5, h6, h7⟩⟩
  unfold shl
  dsimp only
  split_ifs <;>
    first
    | omega
    | exact Nat.mod_lt _ (by norm_num)
    | exact h4 i
    | exact h4 x
    | exact h4 y
    | exact h5 i
    | exact Nat.lt_of_le_of_lt (shiftRight_le _ _) (h4 x)
    | exact Nat.lt_of_le_of_lt (shiftRight_le _ _) (and_le_right_lt (by norm_num))
    | exact and_le_right_lt (by norm_num)
    | exact and_le_right_lt (h4 y)
    | exact or_lt_256 (h4 x) (h4 y)
    | exact xor_lt_256 (h4 x) (h4 y)
    | exact Nat.lt_of_le_of_lt (Nat.div_le_self _ _) (h4 x)
    | exact Nat.lt_of_le_of_lt (Nat.mod_le _ _) (h4 x)
    | exact Nat.lt_of_le_of_lt Nat.and_le_left (Nat.mod_lt _ (by norm_num))

lemma props_shr (vm : CHIP_8) (x : Nat) : Pres vm (vm.shr x) := by
  refine ⟨rfl, fun ⟨h1, h2, h3, h4, h5, h6, h7⟩ =>
    ⟨show vm.PC ≤ 0x10FE by omega, h2, h3, fun i => ?_, h5, h6, h7⟩⟩
  unfold shr
  dsimp only
  split_ifs <;>
    first
    | omega
    | exact Nat.mod_lt _ (by norm_num)
    | exact h4 i
    | exact h4 x
    | exact h4 y
    | exact h5 i
    | exact Nat.lt_of_le_of_lt (shiftRight_le _ _) (h4 x)
    | exact Nat.lt_of_le_of_lt (shiftRight_le _ _) (and_le_right_lt (by norm_num))
    | exact and_le_right_lt (by norm_num)
    | exact and_le_right_lt (h4 y)
    | exact or_lt_256 (h4 x) (h4 y)
    | exact xor_lt_256 (h4 x) (h4 y)
    | exact Nat.lt_of_le_of_lt (Nat.div_le_self _ _) (h4 x)
    | exact Nat.lt_of_le_of_lt (Nat.mod_le _ _) (h4 x)
    | exact Nat.lt_of_le_of_lt Nat.and_le_left (Nat.mod_lt _ (by norm_num))

lemma props_mulXY (vm : CHIP_8) (x y : Nat) : Pres vm (vm.mulXY x y) := by
  refine ⟨rfl, fun ⟨h1, h2, h3, h4, h5, h6, h7⟩ =>
    ⟨show vm.PC ≤ 0x10FE by omega, h2, h3, fun i => ?_, h5, h6, h7⟩⟩
  unfold mulXY
  dsimp only
  split_ifs <;>
    first
    | omega
    | exact Nat.mod_lt _ (by norm_num)
    | exact h4 i
    | exact h4 x
    | exact h4 y
    | exact h5 i
    | exact Nat.lt_of_le_of_lt (shiftRight_le _ _) (h4 x)
    | exact Nat.lt_of_le_of_lt (shiftRight_le _ _) (and_le_right_lt (by norm_num))
    | exact and_le_right_lt (by norm_num)
    | exact and_le_right_lt (h4 y)
    | exact or_lt_256 (h4 x) (h4 y)
    | exact xor_lt_256 (h4 x) (h4 y)
    | exact Nat.lt_of_le_of_lt (Nat.div_le_self _ _) (h4 x)
    | exact Nat.lt_of_le_of_lt (Nat.mod_le _ _) (h4 x)
    | exact Nat.lt_of_le_of_lt Nat.and_le_left (Nat.mod_lt _ (by norm_num))

lemma props_divXY (vm : CHIP_8) (x y : Nat) (vm1 : CHIP_8)
    (h : vm.divXY x y = some vm1) : Pres vm vm1 := by
  unfold divXY at h
  split at h
  · exact absurd h (by simp)
  · injection h with h
    subst h
    refine ⟨rfl, fun ⟨h1, h2, h3, h4, h5, h6, h7⟩ =>
      ⟨show vm.PC ≤ 0x10FE by omega, h2, h3, fun i => ?_, h5, h6, h7⟩⟩
    dsimp only
    split_ifs <;>
      first
      | omega
      | exact Nat.mod_lt _ (by norm_num)
      | exact h4 i
      | exact h4 x
      | exact h4 y
      | exact h5 i
      | exact Nat.lt_of_le_of_lt (shiftRight_le _ _) (h4 x)
      | exact Nat.lt_of_le_of_lt (shiftRight_le _ _) (and_le_right_lt (by norm_num))
      | exact and_le_right_lt (by norm_num)
      | exact and_le_right_lt (h4 y)
      | exact or_lt_256 (h4 x) (h4 y)
      | exact xor_lt_256 (h4 x) (h4 y)
      | exact Nat.lt_of_le_of_lt (Nat.div_le_self _ _) (h4 x)
      | exact Nat.lt_of_le_of_lt (Nat.mod_le _ _) (h4 x)
      | exact Nat.lt_of_le_of_lt Nat.and_le_left (Nat.mod_lt _ (by norm_num))

lemma props_addIX (vm : CHIP_8) (x : Nat) : Pres vm (vm.addIX x) := by
  refine ⟨rfl, fun ⟨h1, h2, h3, h4, h5, h6, h7⟩ =>
    ⟨show vm.PC ≤ 0x10FE by omega, h2, h3, fun i => ?_, h5, h6, h7⟩⟩
  unfold addIX
  dsimp only
  split_ifs <;>
    first
    | omega
    | exact Nat.mod_lt _ (by norm_num)
    | exact h4 i
    | exact h4 x
    | exact h4 y
    | exact h5 i
    | exact Nat.lt_of_le_of_lt (shiftRight_le _ _) (h4 x)
    | exact Nat.lt_of_le_of_lt (shiftRight_le _ _) (and_le_right_lt (by norm_num))
    | exact and_le_right_lt (by norm_num)
    | exact and_le_right_lt (h4 y)
    | exact or_lt_256 (h4 x) (h4 y)
    | exact xor_lt_256 (h4 x) (h4 y)
    | exact Nat.lt_of_le_of_lt (Nat.div_le_self _ _) (h4 x)
    | exact Nat.lt_of_le_of_lt (Nat.mod_le _ _) (h4 x)
    | exact Nat.lt_of_le_of_lt Nat.and_le_left (Nat.mod_lt _ (by norm_num))

lemma props_loadRandom (vm : CHIP_8) (rnd x b : Nat) :
    Pres vm (vm.loadRandom rnd x b) := by
  refine ⟨rfl, fun ⟨h1, h2, h3, h4, h5, h6, h7⟩ =>
    ⟨by show vm.PC ≤ 0x10FE; omega, h2, h3, fun i => ?_, h5, h6, h7⟩⟩
  show (if i = x then Nat.land (rnd % 256) b else vm.V i) < 256
  split
  · exact Nat.lt_of_le_of_lt Nat.and_le_left (Nat.mod_lt _ (by norm_num))
  · exact h4 i

lemma props_storeR (vm : CHIP_8) (x : Nat) : Pres vm (vm.storeR x) := by
  refine ⟨rfl, fun ⟨h1, h2, h3, h4, h5, h6, h7⟩ =>
    ⟨by show vm.PC ≤ 0x10FE; omega, h2, h3, h4, fun i => ?_, h6, h7⟩⟩
  show (if i < min 8 (x + 1) then vm.V i else vm.R i) < 256
  split
  · exact h4 i
  · exact h5 i

lemma saveRegs_foldl (vm : CHIP_8) (l : List Nat) (vm1 : CHIP_8) :
    (l.foldl (fun vm2 i =>
        if vm.I + i < 0x1000 then
          { vm2 with Memory := fun a => if a = vm.I + i then vm.V i else vm2.Memory a }
        else vm2) vm1)
    = { vm1 with Memory := fun a =>
          if (a - vm.I) ∈ l ∧ vm.I ≤ a ∧ a < 0x1000 then vm.V (a - vm.I)
          else vm1.Memory a } := by
  induction l generalizing vm1 with
  | nil => simp
  | cons j rest ih =>
    rw [List.foldl_cons, ih]
    split
    · congr 1
      funext a
      by_cases hrest : (a - vm.I) ∈ rest ∧ vm.I ≤ a ∧ a < 0x1000
      · rw [if_pos hrest,
          if_pos ⟨List.mem_cons.mpr (Or.inr hrest.1), hrest.2.1, hrest.2.2⟩]
      · rw [if_neg hrest]
        dsimp only
        by_cases hj : a = vm.I + j
        · subst hj
          have hlt : vm.I + j < 0x1000 := by assumption
          rw [if_pos rfl, Nat.add_sub_cancel_left,
            if_pos ⟨List.mem_cons_self j rest, Nat.le_add_right _ _, hlt⟩]
        · rw [if_neg hj]
          by_cases hcons : (a - vm.I) ∈ j :: rest ∧ vm.I ≤ a ∧ a < 0x1000
          · exfalso
            rcases hcons with ⟨hmem, hle, hlta⟩
            rcases List.mem_cons.mp hmem with hEq | hmemr
            · exact hj (by omega)
            · exact hrest ⟨hmemr, hle, hlta⟩
          · rw [if_neg hcons]
    · congr 1
      funext a
      by_cases hrest : (a - vm.I) ∈ rest ∧ vm.I ≤ a ∧ a < 0x1000
      · rw [if_pos hrest,
          if_pos ⟨List.mem_cons.mpr (Or.inr hrest.1), hrest.2.1, hrest.2.2⟩]
      · rw [if_neg hrest]
        by_cases hcons : (a - vm.I) ∈ j :: rest ∧ vm.I ≤ a ∧ a < 0x1000
        · exfalso
          rcases hcons with ⟨hmem, hle, hlta⟩
          rcases List.mem_cons.mp hmem with hEq | hmemr
          · have : a = vm.I + j := by omega
            subst this
            exact absurd hlta (by assumption)
          · exact hrest ⟨hmemr, hle, hlta⟩
        · rw [if_neg hcons]

lemma loadRegs_foldl (vm : CHIP_8) (l : List Nat) (vm1 : CHIP_8) :
    (l.foldl (fun vm2 i =>
        { vm2 with V := fun j =>
            if j = i then (if vm.I + i < 0x1000 then vm.Memory (vm.I + i) else 0)
            else vm2.V j }) vm1)
    = { vm1 with V := fun j =>
          if j ∈ l then (if vm.I + j < 0x1000 then vm.Memory (vm.I + j) else 0)
          else vm1.V j } := by
  induction l generalizing vm1 with
  | nil => simp
  | cons j rest ih =>
    rw [List.foldl_cons, ih]
    congr 1
    funext i
    by_cases hrest : i ∈ rest
    · rw [if_pos hrest, if_pos (List.mem_cons.mpr (Or.inr hrest))]
    · rw [if_neg hrest]
      dsimp only
      by_cases hij : i = j
      · subst hij
        rw [if_pos rfl, if_pos (List.mem_cons.mpr (Or.inl rfl))]
      · rw [if_neg hij, if_neg (by simp [List.mem_cons, hij, hrest])]

lemma props_saveRegs (vm : CHIP_8) (x : Nat) : Pres vm (vm.saveRegs x) := by
  unfold saveRegs
  rw [saveRegs_foldl]
  refine ⟨rfl, fun ⟨h1, h2, h3, h4, h5, h6, h7⟩ =>
    ⟨show vm.PC ≤ 0x10FE by omega, h2, h3, h4, h5, fun a => ?_, h7⟩⟩
  show (if _ then vm.V (a - vm.I) else vm.Memory a) < 256
  split
  · exact h4 _
  · exact h6 a

lemma props_loadRegs (vm : CHIP_8) (x : Nat) : Pres vm (vm.loadRegs x) := by
  unfold loadRegs
  rw [loadRegs_foldl]
  refine ⟨rfl, fun ⟨h1, h2, h3, h4, h5, h6, h7⟩ =>
    ⟨show vm.PC ≤ 0x10FE by omega, h2, h3, fun i => ?_, h5, h6, h7⟩⟩
  show (if _ then (if _ then vm.Memory _ else 0) else vm.V i) < 256
  split
  · split
    · exact h6 _
    · norm_num
  · exact h4 i

lemma props_bcd (vm : CHIP_8) (x : Nat) (vm1 : CHIP_8)
    (h : vm.bcd x = some vm1) : Pres vm vm1 := by
  unfold bcd at h
  dsimp only at h
  split at h
  · injection h with h
    subst h
    refine ⟨rfl, fun ⟨h1, h2, h3, h4, h5, h6, h7⟩ =>
      ⟨show vm.PC ≤ 0x10FE by omega, h2, h3, h4, h5, fun a => ?_, h7⟩⟩
    dsimp only
    split_ifs <;> first | exact and_le_right_lt (by norm_num) | exact h6 a
  · exact absurd h (by simp)

lemma props_bcd16 (vm : CHIP_8) (x y : Nat) (vm1 : CHIP_8)
    (h : vm.bcd16 x y = some vm1) : Pres vm vm1 := by
  unfold bcd16 at h
  dsimp only at h
  split at h
  · injection h with h
    subst h
    refine ⟨rfl, fun ⟨h1, h2, h3, h4, h5, h6, h7⟩ =>
      ⟨show vm.PC ≤ 0x10FE by omega, h2, h3, h4, h5, fun a => ?_, h7⟩⟩
    dsimp only
    split_ifs <;> first | exact and_le_right_lt (by norm_num) | exact h6 a
  · exact absurd h (by simp)

lemma props_loadASCII (vm : CHIP_8) (x : Nat) : Pres vm (vm.loadASCII x) := by
  refine ⟨rfl, fun ⟨h1, h2, h3, h4, h5, h6, h7⟩ =>
    ⟨show vm.PC ≤ 0x10FE by omega, h2, h3, fun i => ?_, h5, fun a => ?_, h7⟩⟩
  · show (if i = 0 then vm.Memory _ >>> 4 else vm.V i) < 256
    split
    · exact Nat.lt_of_le_of_lt (shiftRight_le _ _) (h6 _)
    · exact h4 i
  · show (if _ then vm.Memory _ else if _ then vm.Memory _ else if _ then
      vm.Memory _ else if _ then vm.Memory _ else if _ then vm.Memory _
      else vm.Memory a) < 256
    split_ifs <;> exact h6 _

lemma props_drawSprite (vm : CHIP_8) (x y : Nat) (n : Nat) (vm1 : CHIP_8)
    (h : vm.drawSprite x y n = some vm1) : Pres vm vm1 := by
  unfold drawSprite at h
  rcases hd : draw vm vm.I (toInt8 (vm.V x)) (toInt8 (vm.V y)) n with _ | p
  · rw [hd] at h
    exact absurd h (by simp)
  · rw [hd] at h
    injection h with h
    subst h
    refine ⟨rfl, fun ⟨h1, h2, h3, h4, h5, h6, h7⟩ =>
      ⟨show vm.PC ≤ 0x10FE by omega, h2, h3, fun i => ?_, h5, h6, h7⟩⟩
    show (if i = 0xF then (if _ then 1 else 0) else vm.V i) < 256
    split_ifs <;> first | omega | exact h4 i

lemma props_drawSpriteEx (vm : CHIP_8) (x y : Nat) (vm1 : CHIP_8)
    (h : vm.drawSpriteEx x y = some vm1) : Pres vm vm1 := by
  unfold drawSpriteEx at h
  rcases hd : drawSpriteExLoop vm vm.I x y 0 vm.Video 0 with _ | p
  · rw [hd] at h
    exact absurd h (by simp)
  · rw [hd] at h
    injection h with h
    subst h
    refine ⟨rfl, fun ⟨h1, h2, h3, h4, h5, h6, h7⟩ =>
      ⟨show vm.PC ≤ 0x10FE by omega, h2, h3, fun i => ?_, h5, h6, h7⟩⟩
    show (if i = 0xF then (if _ then 1 else 0) else vm.V i) < 256
    split_ifs <;> first | omega | exact h4 i

lemma props_readR (vm : CHIP_8) (x : Nat) (vm1 : CHIP_8)
    (h : vm.readR x = some vm1) : Pres vm vm1 := by
  unfold readR at h
  split at h
  · injection h with h
    subst h
    refine ⟨rfl, fun ⟨h1, h2, h3, h4, h5, h6, h7⟩ =>
      ⟨by show vm.PC ≤ 0x10FE; omega, h2, h3, fun i => ?_, h5, h6, h7⟩⟩
    show (if i < min 16 (x + 1) then vm.R i else vm.V i) < 256
    split
    · exact h5 i
    · exact h4 i
  · exact absurd h (by simp)

lemma fetch_eq (vm : CHIP_8) (p : CHIP_8 × Nat) (h : vm.fetch = some p) :
    vm.PC + 1 < 0x1000 ∧ p.1 = { vm with PC := vm.PC + 2 } ∧
    p.2 = (vm.Memory vm.PC <<< 8) ||| vm.Memory (vm.PC + 1) := by
  unfold fetch at h
  split at h
  · injection h with h
    subst h
    exact ⟨by assumption, rfl, rfl⟩
  · exact absurd h (by simp)

lemma decodeExec_props (now : Int) (rnd : Nat) (vm : CHIP_8) (inst : Nat)
    (r : ExecResult) (h : decodeExec now rnd vm inst = some r) :
    r.state.Breakpoints = vm.Breakpoints ∧
    (InvAt 0x1000 vm → InvAt 0x10FE r.state) := by
  unfold decodeExec at h
  dsimp only at h
  by_cases hc0 : inst = 0x00E0
  · rw [if_pos hc0] at h
    injection h with h
    subst h
    exact props_cls vm
  rw [if_neg hc0] at h
  by_cases hc1 : inst = 0x00EE
  · rw [if_pos hc1] at h
    obtain ⟨vm1, hvm1, hr⟩ := Option.map_eq_some'.mp h
    subst hr
    exact props_ret vm vm1 hvm1
  rw [if_neg hc1] at h
  by_cases hc2 : inst = 0x00FB
  · rw [if_pos hc2] at h
    obtain ⟨vm1, hvm1, hr⟩ := Option.map_eq_some'.mp h
    subst hr
    exact props_scrollRight vm vm1 hvm1
  rw [if_neg hc2] at h
  by_cases hc3 : inst = 0x00FC
  · rw [if_pos hc3] at h
    obtain ⟨vm1, hvm1, hr⟩ := Option.map_eq_some'.mp h
    subst hr
    exact props_scrollLeft vm vm1 hvm1
  rw [if_neg hc3] at h
  by_cases hc4 : inst = 0x00FD
  · rw [if_pos hc4] at h
    injection h with h
    subst h
    exact props_exit vm
  rw [if_neg hc4] at h
  by_cases hc5 : inst = 0x00FE
  · rw [if_pos hc5] at h
    injection h with h
    subst h
    exact props_low vm
  rw [if_neg hc5] at h
  by_cases hc6 : inst = 0x00FF
  · rw [if_pos hc6] at h
    injection h with h
    subst h
    exact props_high vm
  rw [if_neg hc6] at h
  by_cases hc7 : inst &&& 0xFFF0 = 0x00B0
  · rw [if_pos hc7] at h
    obtain ⟨vm1, hvm1, hr⟩ := Option.map_eq_some'.mp h
    subst hr
    exact props_scrollUp vm _ vm1 hvm1
  rw [if_neg hc7] at h
  by_cases hc8 : inst &&& 0xFFF0 = 0x00C0
  · rw [if_pos hc8] at h
    obtain ⟨vm1, hvm1, hr⟩ := Option.map_eq_some'.mp h
    subst hr
    exact props_scrollDown vm _ vm1 hvm1
  rw [if_neg hc8] at h
  by_cases hc9 : inst &&& 0xF000 = 0x0000
  · rw [if_pos hc9] at h
    obtain ⟨vm1, hvm1, hr⟩ := Option.map_eq_some'.mp h
    exact absurd hvm1 (by simp [CHIP_8.sys])
  rw [if_neg hc9] at h
  by_cases hc10 : inst &&& 0xF000 = 0x1000
  · rw [if_pos hc10] at h
    injection h with h
    subst h
    exact props_jump vm _ Nat.and_le_right
  rw [if_neg hc10] at h
  by_cases hc11 : inst &&& 0xF000 = 0x2000
  · rw [if_pos hc11] at h
    obtain ⟨vm1, hvm1, hr⟩ := Option.map_eq_some'.mp h
    subst hr
    exact props_call vm _ vm1 Nat.and_le_right hvm1
  rw [if_neg hc11] at h
  by_cases hc12 : inst &&& 0xF000 = 0x3000
  · rw [if_pos hc12] at h
    injection h with h
    subst h
    exact props_skipIf vm _ _
  rw [if_neg hc12] at h
  by_cases hc13 : inst &&& 0xF000 = 0x4000
  · rw [if_pos hc13] at h
    injection h with h
    subst h
    exact props_skipIfNot vm _ _
  rw [if_neg hc13] at h
  by_cases hc14 : inst &&& 0xF00F = 0x5000
  · rw [if_pos hc14] at h
    injection h with h
    subst h
    exact props_skipIfXY vm _ _
  rw [if_neg hc14] at h
  by_cases hc15 : inst &&& 0xF00F = 0x5001
  · rw [if_pos hc15] at h
    injection h with h
    subst h
    exact props_skipIfGreater vm _ _
  rw [if_neg hc15] at h
  by_cases hc16 : inst &&& 0xF00F = 0x5002
  · rw [if_pos hc16] at h
    injection h with h
    subst h
    exact props_skipIfLess vm _ _
  rw [if_neg hc16] at h
  by_cases hc17 : inst &&& 0xF000 = 0x6000
  · rw [if_pos hc17] at h
    injection h with h
    subst h
    exact props_loadX vm _ _ (and_le_right_lt (by norm_num))
  rw [if_neg hc17] at h
  by_cases hc18 : inst &&& 0xF000 = 0x7000
  · rw [if_pos hc18] at h
    injection h with h
    subst h
    exact props_addX vm _ _
  rw [if_neg hc18] at h
  by_cases hc19 : inst &&& 0xF00F = 0x8000
  · rw [if_pos hc19] at h
    injection h with h
    subst h
    exact props_loadXY vm _ _
  rw [if_neg hc19] at h
  by_cases hc20 : inst &&& 0xF00F = 0x8001
  · rw [if_pos hc20] at h
    injection h with h
    subst h
    exact props_or vm _ _
  rw [if_neg hc20] at h
  by_cases hc21 : inst &&& 0xF00F = 0x8002
  · rw [if_pos hc21] at h
    injection h with h
    subst h
    exact props_and vm _ _
  rw [if_neg hc21] at h
  by_cases hc22 : inst &&& 0xF00F = 0x8003
  · rw [if_pos hc22] at h
    injection h with h
    subst h
    exact props_xor vm _ _
  rw [if_neg hc22] at h
  by_cases hc23 : inst &&& 0xF00F = 0x8004
  · rw [if_pos hc23] at h
    injection h with h
    subst h
    exact props_addXY vm _ _
  rw [if_neg hc23] at h
  by_cases hc24 : inst &&& 0xF00F = 0x8005
  · rw [if_pos hc24] at h
    injection h with h
    subst h
    exact props_subXY vm _ _
  rw [if_neg hc24] at h
  by_cases hc25 : inst &&& 0xF00F = 0x8006
  · rw [if_pos hc25] at h
    injection h with h
    subst h
    exact props_shr vm _
  rw [if_neg hc25] at h
  by_cases hc26 : inst &&& 0xF00F = 0x8007
  · rw [if_pos hc26] at h
    injection h with h
    subst h
    exact props_subYX vm _ _
  rw [if_neg hc26] at h
  by_cases hc27 : inst &&& 0xF00F = 0x800E
  · rw [if_pos hc27] at h
    injection h with h
    subst h
    exact props_shl vm _
  rw [if_neg hc27] at h
  by_cases hc28 : inst &&& 0xF00F = 0x9000
  · rw [if_pos hc28] at h
    injection h with h
    subst h
    exact props_skipIfNotXY vm _ _
  rw [if_neg hc28] at h
  by_cases hc29 : inst &&& 0xF00F = 0x9001
  · rw [if_pos hc29] at h
    injection h with h
    subst h
    exact props_mulXY vm _ _
  rw [if_neg hc29] at h
  by_cases hc30 : inst &&& 0xF00F = 0x9002
  · rw [if_pos hc30] at h
    obtain ⟨vm1, hvm1, hr⟩ := Option.map_eq_some'.mp h
    subst hr
    exact props_divXY vm _ _ vm1 hvm1
  rw [if_neg hc30] at h
  by_cases hc31 : inst &&& 0xF0FF = 0xF033
  · rw [if_pos hc31] at h
    obtain ⟨vm1, hvm1, hr⟩ := Option.map_eq_some'.mp h
    subst hr
    exact props_bcd vm _ vm1 hvm1
  rw [if_neg hc31] at h
  by_cases hc32 : inst &&& 0xF00F = 0x9003
  · rw [if_pos hc32] at h
    obtain ⟨vm1, hvm1, hr⟩ := Option.map_eq_some'.mp h
    subst hr
    exact props_bcd16 vm _ _ vm1 hvm1
  rw [if_neg hc32] at h
  by_cases hc33 : inst &&& 0xF000 = 0xA000
  · rw [if_pos hc33] at h
    injection h with h
    subst h
    exact props_loadI vm _
  rw [if_neg hc33] at h
  by_cases hc34 : inst &&& 0xF000 = 0xB000
  · rw [if_pos hc34] at h
    injection h with h
    subst h
    exact props_jumpV0 vm _ Nat.and_le_right
  rw [if_neg hc34] at h
  by_cases hc35 : inst &&& 0xF000 = 0xC000
  · rw [if_pos hc35] at h
    injection h with h
    subst h
    exact props_loadRandom vm _ _ _
  rw [if_neg hc35] at h
  by_cases hc36 : inst &&& 0xF00F = 0xD000
  · rw [if_pos hc36] at h
    obtain ⟨vm1, hvm1, hr⟩ := Option.map_eq_some'.mp h
    subst hr
    exact props_drawSpriteEx vm _ _ vm1 hvm1
  rw [if_neg hc36] at h
  by_cases hc37 : inst &&& 0xF000 = 0xD000
  · rw [if_pos hc37] at h
    obtain ⟨vm1, hvm1, hr⟩ := Option.map_eq_some'.mp h
    subst hr
    exact props_drawSprite vm _ _ _ vm1 hvm1
  rw [if_neg hc37] at h
  by_cases hc38 : inst &&& 0xF0FF = 0xE09E
  · rw [if_pos hc38] at h
    obtain ⟨vm1, hvm1, hr⟩ := Option.map_eq_some'.mp h
    subst hr
    exact props_skipIfPressed vm _ vm1 hvm1
  rw [if_neg hc38] at h
  by_cases hc39 : inst &&& 0xF0FF = 0xE0A1
  · rw [if_pos hc39] at h
    obtain ⟨vm1, hvm1, hr⟩ := Option.map_eq_some'.mp h
    subst hr
    exact props_skipIfNotPressed vm _ vm1 hvm1
  rw [if_neg hc39] at h
  by_cases hc40 : inst &&& 0xF0FF = 0xF007
  · rw [if_pos hc40] at h
    injection h with h
    subst h
    exact props_loadXDT now vm _
  rw [if_neg hc40] at h
  by_cases hc41 : inst &&& 0xF0FF = 0xF00A
  · rw [if_pos hc41] at h
    injection h with h
    subst h
    exact props_loadXK vm _
  rw [if_neg hc41] at h
  by_cases hc42 : inst &&& 0xF0FF = 0xF015
  · rw [if_pos hc42] at h
    injection h with h
    subst h
    exact props_loadDTX now vm _
  rw [if_neg hc42] at h
  by_cases hc43 : inst &&& 0xF0FF = 0xF018
  · rw [if_pos hc43] at h
    injection h with h
    subst h
    exact props_loadSTX now vm _
  rw [if_neg hc43] at h
  by_cases hc44 : inst &&& 0xF0FF = 0xF01E
  · rw [if_pos hc44] at h
    injection h with h
    subst h
    exact props_addIX vm _
  rw [if_neg hc44] at h
  by_cases hc45 : inst &&& 0xF0FF = 0xF029
  · rw [if_pos hc45] at h
    injection h with h
    subst h
    exact props_loadF vm _
  rw [if_neg hc45] at h
  by_cases hc46 : inst &&& 0xF0FF = 0xF030
  · rw [if_pos hc46] at h
    injection h with h
    subst h
    exact props_loadHF vm _
  rw [if_neg hc46] at h
  by_cases hc47 : inst &&& 0xF0FF = 0xF055
  · rw [if_pos hc47] at h
    injection h with h
    subst h
    exact props_saveRegs vm _
  rw [if_neg hc47] at h
  by_cases hc48 : inst &&& 0xF0FF = 0xF065
  · rw [if_pos hc48] at h
    injection h with h
    subst h
    exact props_loadRegs vm _
  rw [if_neg hc48] at h
  by_cases hc49 : inst &&& 0xF0FF = 0xF075
  · rw [if_pos hc49] at h
    injection h with h
    subst h
    exact props_storeR vm _
  rw [if_neg hc49] at h
  by_cases hc50 : inst &&& 0xF0FF = 0xF085
  · rw [if_pos hc50] at h
    obtain ⟨vm1, hvm1, hr⟩ := Option.map_eq_some'.mp h
    subst hr
    exact props_readR vm _ vm1 hvm1
  rw [if_neg hc50] at h
  by_cases hc51 : inst &&& 0xF0FF = 0xF094
  · rw [if_pos hc51] at h
    injection h with h
    subst h
    exact props_loadASCII vm _
  rw [if_neg hc51] at h
  injection h with h
  subst h
  exact ⟨rfl, fun ⟨g1, g2, g3, g4, g5, g6, g7⟩ =>
    ⟨show vm.PC ≤ 0x10FE by omega, g2, g3, g4, g5, g6, g7⟩⟩

lemma execInst_props (now : Int) (rnd : Nat) (vm : CHIP_8) (r : ExecResult)
    (h : execInst now rnd vm = some r) :
    r.state.Breakpoints = vm.Breakpoints ∧ (Inv vm → Inv r.state) := by
  unfold execInst at h
  rcases hf : vm.fetch with _ | p
  · rw [hf] at h
    exact absurd h (by simp)
  · rw [hf] at h
    obtain ⟨hpc, hvm, hinst⟩ := fetch_eq vm p hf
    have hd := decodeExec_props now rnd p.1 p.2 r h
    constructor
    · rw [hd.1, hvm]
    · intro hi
      apply hd.2
      rw [hvm]
      obtain ⟨g1, g2, g3, g4, g5, g6, g7⟩ := hi
      exact ⟨show vm.PC + 2 ≤ 0x1000 by omega, g2, g3, g4, g5, g6, g7⟩

lemma step_inv (now : Int) (rnd : Nat) (vm : CHIP_8) (p : CHIP_8 × Outcome)
    (h : Step now rnd vm = some p) (hi : Inv vm) : Inv p.1 := by
  unfold Step at h
  split at h
  · injection h with h
    subst h
    exact hi
  · split at h
    · exact absurd h (by simp)
    · injection h with h
      subst h
      exact (execInst_props now rnd vm _ (by assumption)).2 hi
    · have hr := (execInst_props now rnd vm _ (by assumption)).2 hi
      dsimp only at h
      split at h
      · split at h
        · injection h with h
          subst h
          dsimp only
          split
          · exact hr
          · exact hr
        · injection h with h
          subst h
          exact hr
      · injection h with h
        subst h
        exact hr

lemma reset_inv (now : Int) (vm : CHIP_8) (hi : Inv vm) : Inv (Reset now vm) := by
  obtain ⟨g1, g2, g3, g4, g5, g6, g7⟩ := hi
  exact ⟨show vm.Base ≤ 0x10FE by omega, g2, g3,
    fun i => show (0:Nat) < 256 by norm_num,
    fun i => show (0:Nat) < 256 by norm_num, g7, g7⟩

lemma loadROM_inv (program : List Nat) (eti : Bool) (now : Int) (vm : CHIP_8)
    (hb : ∀ b ∈ program, b < 256) (h : LoadROM program eti now = some vm) :
    Inv vm := by
  have hgetD : ∀ k, program.getD k 0 < 256 := by
    intro k
    by_cases hk : k < program.length
    · rw [List.getD_eq_getElem program 0 hk]
      exact hb _ (List.getElem_mem hk)
    · rw [List.getD_eq_default program 0 (by omega)]
      norm_num
  unfold LoadROM at h
  dsimp only at h
  have hrom : ∀ i, (if i < 0x200 then EmulatorROM i
      else if (if eti then 0x600 else 0x200) ≤ i ∧
          i < (if eti then 0x600 else 0x200) + program.length
        then program.getD (i - (if eti then 0x600 else 0x200)) 0
      else 0) < 256 := by
    intro i
    split_ifs <;>
      first
      | (show EmulatorROM i < 256; unfold EmulatorROM; norm_num)
      | exact hgetD _
      | norm_num
  by_cases hlen : program.length > 0x1000 - (if eti then (0x600:Nat) else 0x200)
  · rw [if_pos hlen] at h
    exact absurd h (by simp)
  · rw [if_neg hlen] at h
    injection h with h
    subst h
    refine ⟨?_, ?_, fun i => show (0:Nat) ≤ 0x1000 by norm_num,
      fun i => show (0:Nat) < 256 by norm_num,
      fun i => show (0:Nat) < 256 by norm_num, fun i => ?_, fun i => ?_⟩
    · show (if eti then (0x600:Nat) else 0x200) ≤ 0x10FE
      split <;> norm_num
    · show (if eti then (0x600:Nat) else 0x200) ≤ 0xFFF
      split <;> norm_num
    · exact hrom i
    · exact hrom i

end CHIP_8

/-- Every reachable state is well-formed. -/
lemma reachable_inv (vm : CHIP_8) (h : Reachable vm) : CHIP_8.Inv vm := by
  induction h with
  | load program eti now vm hb hl => exact CHIP_8.loadROM_inv program eti now vm hb hl
  | step now rnd vm p hv hs ih => exact CHIP_8.step_inv now rnd vm p hs ih
  | reset now vm hv ih => exact CHIP_8.reset_inv now vm ih




section ClaimTheorems

/-- Claim C2 (code bug): executing `ADD V0,V0` with V0 = 0x80 wraps
(0x80 + 0x80 = 0x100 > 255) and stores 0 in V0, yet the code leaves
VF = 0 because the carry test `V[x] < V[y]` compares the freshly stored
sum with itself when x = y.  The claim (and every CHIP-8 reference, and
the handler's own comment "set carry") requires VF = 1 here. -/
theorem chip8_addXY_carry_bug :
    c2vm.V 0 = 0x80 ∧ c2vm.Memory 0x200 = 0x80 ∧ c2vm.Memory 0x201 = 0x04
    ∧ (CHIP_8.Step 0 0 c2vm).isSome = true
    ∧ c2post.V 0 = 0
    ∧ c2post.V 0xF = 0
    ∧ c2vm.V 0 + c2vm.V 0 > 255 := by decide

/-- Claim C3 (code bug): `SUB V0,VF` with V0 = 5, VF = 3 should store
(5 − 3) mod 256 = 2 in V0, but the code writes the no-borrow flag into
VF before subtracting, so it computes V0 := 5 − 1 = 4: the subtrahend
named by the instruction (the old VF) is not what is subtracted. -/
theorem chip8_subXY_order_bug :
    c3vm.V 0 = 5 ∧ c3vm.V 0xF = 3
    ∧ c3vm.Memory 0x200 = 0x80 ∧ c3vm.Memory 0x201 = 0xF5
    ∧ (CHIP_8.Step 0 0 c3vm).isSome = true
    ∧ c3post.V 0 = 4
    ∧ (c3vm.V 0 + 256 - c3vm.V 0xF) % 256 = 2
    ∧ c3post.V 0 ≠ (c3vm.V 0 + 256 - c3vm.V 0xF) % 256 := by decide

/-- Claim C6: Reset restores Memory to the pristine ROM image, zeroes
V, R and the video buffer, sets PC to base, SP to 0, I to 0, pitch to 8,
clears the wait-key pointer, and leaves the breakpoint map unchanged. -/
theorem chip8_reset_spec (vm : CHIP_8) (now : Int) :
    (∀ i, (vm.Reset now).Memory i = vm.ROM i)
    ∧ (∀ i, (vm.Reset now).V i = 0)
    ∧ (∀ i, (vm.Reset now).R i = 0)
    ∧ (∀ i, (vm.Reset now).Video i = 0)
    ∧ (vm.Reset now).PC = vm.Base
    ∧ (vm.Reset now).SP = 0
    ∧ (vm.Reset now).I = 0
    ∧ (vm.Reset now).Pitch = 8
    ∧ (vm.Reset now).W = none
    ∧ (vm.Reset now).Breakpoints = vm.Breakpoints :=
  ⟨fun i => rfl, fun i => rfl, fun i => rfl, fun i => rfl,
    rfl, rfl, rfl, rfl, rfl, rfl⟩

/-- Claim C8 (code bug): when `len(rom)` is already a multiple of the
power-of-two operand, `assembleALIGN` emits a full `n` zero bytes
instead of none (`pad := n - (len & (n-1))` is `n`, not 0, at
`offset = 0`); the unaligned case and the fatal non-power-of-two case
behave as claimed. -/
theorem assembleALIGN_aligned_bug :
    assembleALIGN 0x200 2 = some [0, 0]
    ∧ assembleALIGN 0x200 8 = some [0, 0, 0, 0, 0, 0, 0, 0]
    ∧ assembleALIGN 0x201 2 = some [0]
    ∧ assembleALIGN 0x205 8 = some [0, 0, 0]
    ∧ assembleALIGN 0x200 6 = none := by decide

end ClaimTheorems

section ClaimTheorems2

/-- Claim C9: `LoadROM` fails (returns no VM) exactly when the program
is larger than `4096 - base` with base 0x600 in ETI mode and 0x200
otherwise; on success the program bytes sit at `base` in the pristine
ROM image and the VM is reset (memory equals the ROM image, PC = base,
SP = I = 0, pitch 8, not waiting, registers and video cleared). -/
theorem chip8_loadROM_spec (program : List Nat) (eti : Bool) (now : Int) :
    (CHIP_8.LoadROM program eti now = none ↔
      program.length > 0x1000 - (if eti then (0x600:Nat) else 0x200))
    ∧ (∀ vm, CHIP_8.LoadROM program eti now = some vm →
        vm.Base = (if eti then (0x600:Nat) else 0x200)
        ∧ (∀ i, i < program.length → vm.ROM (vm.Base + i) = program.getD i 0)
        ∧ (∀ i, vm.Memory i = vm.ROM i)
        ∧ vm.PC = vm.Base ∧ vm.SP = 0 ∧ vm.I = 0 ∧ vm.Pitch = 8 ∧ vm.W = none
        ∧ (∀ i, vm.V i = 0) ∧ (∀ i, vm.R i = 0) ∧ (∀ i, vm.Video i = 0)) := by
  constructor
  · unfold CHIP_8.LoadROM
    dsimp only
    split
    · simp_all
    · simp_all
  · intro vm h
    unfold CHIP_8.LoadROM at h
    dsimp only at h
    cases eti
    case false =>
      by_cases hlen : program.length > 0x1000 - 0x200
      · rw [if_pos (by simpa using hlen)] at h
        exact absurd h (by simp)
      · rw [if_neg (by simpa using hlen)] at h
        injection h with h
        subst h
        refine ⟨rfl, fun i hi => ?_, fun i => rfl, rfl, rfl, rfl, rfl, rfl,
          fun i => rfl, fun i => rfl, fun i => rfl⟩
        show (if 0x200 + i < 0x200 then EmulatorROM (0x200 + i)
          else if 0x200 ≤ 0x200 + i ∧ 0x200 + i < 0x200 + program.length
            then program.getD (0x200 + i - 0x200) 0 else 0) = program.getD i 0
        rw [if_neg (by omega), if_pos ⟨by omega, by omega⟩,
          Nat.add_sub_cancel_left]
    case true =>
      by_cases hlen : program.length > 0x1000 - 0x600
      · rw [if_pos (by simpa using hlen)] at h
        exact absurd h (by simp)
      · rw [if_neg (by simpa using hlen)] at h
        injection h with h
        subst h
        refine ⟨rfl, fun i hi => ?_, fun i => rfl, rfl, rfl, rfl, rfl, rfl,
          fun i => rfl, fun i => rfl, fun i => rfl⟩
        show (if 0x600 + i < 0x200 then EmulatorROM (0x600 + i)
          else if 0x600 ≤ 0x600 + i ∧ 0x600 + i < 0x600 + program.length
            then program.getD (0x600 + i - 0x600) 0 else 0) = program.getD i 0
        rw [if_neg (by omega), if_pos ⟨by omega, by omega⟩,
          Nat.add_sub_cancel_left]

/-- Witness for C9 at the concrete program `[7, 9]`, non-ETI. -/
theorem chip8_loadROM_spec_witness :
    c9vm.Base = (if false then (0x600:Nat) else 0x200)
    ∧ (∀ i, i < ([7, 9] : List Nat).length →
        c9vm.ROM (c9vm.Base + i) = ([7, 9] : List Nat).getD i 0)
    ∧ (∀ i, c9vm.Memory i = c9vm.ROM i)
    ∧ c9vm.PC = c9vm.Base ∧ c9vm.SP = 0 ∧ c9vm.I = 0 ∧ c9vm.Pitch = 8
    ∧ c9vm.W = none
    ∧ (∀ i, c9vm.V i = 0) ∧ (∀ i, c9vm.R i = 0) ∧ (∀ i, c9vm.Video i = 0) :=
  (chip8_loadROM_spec [7, 9] false 0).2 c9vm rfl

/-- Claim C7: `LD [I],Vx` copies V0..Vx to Memory[I..I+x] leaving every
other byte (including every address at or beyond 0x1000: the clamp)
unchanged, and `LD Vx,[I]` copies Memory[I..I+x] into V0..Vx for every
in-range source; I is unchanged by both. -/
theorem chip8_saveLoadRegs_spec (vm : CHIP_8) (x : Nat) (hx : x ≤ 15) :
    (vm.saveRegs x).I = vm.I
    ∧ (∀ a, (vm.saveRegs x).Memory a =
        if vm.I ≤ a ∧ a ≤ vm.I + x ∧ a < 0x1000 then vm.V (a - vm.I)
        else vm.Memory a)
    ∧ (vm.loadRegs x).I = vm.I
    ∧ (∀ i, i ≤ x → vm.I + i < 0x1000 →
        (vm.loadRegs x).V i = vm.Memory (vm.I + i)) := by
  have hs := CHIP_8.saveRegs_foldl vm (List.range (x + 1)) vm
  have hl := CHIP_8.loadRegs_foldl vm (List.range (x + 1)) vm
  refine ⟨?_, ?_, ?_, ?_⟩
  · show (vm.saveRegs x).I = vm.I
    unfold CHIP_8.saveRegs
    rw [hs]
  · intro a
    unfold CHIP_8.saveRegs
    rw [hs]
    show (if (a - vm.I) ∈ List.range (x + 1) ∧ vm.I ≤ a ∧ a < 0x1000
      then vm.V (a - vm.I) else vm.Memory a) = _
    simp only [List.mem_range]
    by_cases h1 : a - vm.I < x + 1 ∧ vm.I ≤ a ∧ a < 0x1000
    · rw [if_pos h1, if_pos (by omega)]
    · rw [if_neg h1, if_neg (by omega)]
  · show (vm.loadRegs x).I = vm.I
    unfold CHIP_8.loadRegs
    rw [hl]
  · intro i hi hlt
    unfold CHIP_8.loadRegs
    rw [hl]
    show (if i ∈ List.range (x + 1)
      then (if vm.I + i < 0x1000 then vm.Memory (vm.I + i) else 0)
      else vm.V i) = _
    rw [if_pos (List.mem_range.mpr (by omega)), if_pos hlt]

/-- Witness for C7 at `x = 1` on the concrete state `c7vm`. -/
theorem chip8_saveLoadRegs_spec_witness :
    (c7vm.saveRegs 1).I = c7vm.I
    ∧ (∀ a, (c7vm.saveRegs 1).Memory a =
        if c7vm.I ≤ a ∧ a ≤ c7vm.I + 1 ∧ a < 0x1000 then c7vm.V (a - c7vm.I)
        else c7vm.Memory a)
    ∧ (c7vm.loadRegs 1).I = c7vm.I
    ∧ (∀ i, i ≤ 1 → c7vm.I + i < 0x1000 →
        (c7vm.loadRegs 1).V i = c7vm.Memory (c7vm.I + i)) :=
  chip8_saveLoadRegs_spec c7vm 1 (by norm_num)

end ClaimTheorems2

section ClaimTheorems3

/-- A branch of the form `if c then 1 else 0` is zero or one. -/
lemma ite01 {c : Prop} [Decidable c] :
    (if c then (1 : Nat) else 0) = 0 ∨ (if c then (1 : Nat) else 0) = 1 := by
  split
  · exact Or.inr rfl
  · exact Or.inl rfl

/-- Claim C5, amended: VF ∈ {0,1} after ADD Vx,Vy, ADD I,Vx and SHR Vx
for all registers, and after SUB, SUBN, SHL when x ≠ 0xF; MUL stores
the high byte of the 16-bit product in VF and DIV the remainder, values
that are not restricted to {0,1}. -/
theorem chip8_vf_flag_spec (vm : CHIP_8) (x y : Nat) (hV : ∀ i, vm.V i < 256) :
    ((vm.addXY x y).V 0xF = 0 ∨ (vm.addXY x y).V 0xF = 1)
    ∧ ((vm.addIX x).V 0xF = 0 ∨ (vm.addIX x).V 0xF = 1)
    ∧ ((vm.shr x).V 0xF = 0 ∨ (vm.shr x).V 0xF = 1)
    ∧ (x ≠ 0xF → ((vm.subXY x y).V 0xF = 0 ∨ (vm.subXY x y).V 0xF = 1))
    ∧ (x ≠ 0xF → ((vm.subYX x y).V 0xF = 0 ∨ (vm.subYX x y).V 0xF = 1))
    ∧ (x ≠ 0xF → ((vm.shl x).V 0xF = 0 ∨ (vm.shl x).V 0xF = 1))
    ∧ (x ≠ 0xF → (vm.mulXY x y).V 0xF = ((vm.V x * vm.V y) >>> 8) &&& 0xFF)
    ∧ (∀ vm1, vm.divXY x y = some vm1 → vm1.V 0xF = vm.V x % vm.V y) := by
  refine ⟨?_, ?_, ?_, ?_, ?_, ?_, ?_, ?_⟩
  · unfold CHIP_8.addXY
    dsimp only
    rw [if_pos rfl]
    exact ite01
  · unfold CHIP_8.addIX
    dsimp only
    rw [if_pos rfl]
    exact ite01
  · unfold CHIP_8.shr
    dsimp only
    by_cases hx : (0xF : Nat) = x
    · subst hx
      rw [if_pos rfl, if_pos rfl]
      have h1 : vm.V 0xF &&& 1 ≤ 1 := Nat.and_le_right
      rw [Nat.shiftRight_eq_div_pow]
      left
      omega
    · rw [if_neg hx, if_pos rfl]
      have h1 : vm.V x &&& 1 ≤ 1 := Nat.and_le_right
      omega
  · intro hx
    unfold CHIP_8.subXY
    dsimp only
    rw [if_neg (fun hc => hx hc.symm), if_pos rfl]
    exact ite01
  · intro hx
    unfold CHIP_8.subYX
    dsimp only
    rw [if_neg (fun hc => hx hc.symm), if_pos rfl]
    exact ite01
  · intro hx
    unfold CHIP_8.shl
    dsimp only
    rw [if_neg (fun hc => hx hc.symm), if_pos rfl]
    have h1 := hV x
    rw [Nat.shiftRight_eq_div_pow]
    norm_num
    omega
  · intro hx
    unfold CHIP_8.mulXY
    dsimp only
    rw [if_neg (fun hc => hx hc.symm), if_pos rfl]
  · intro vm1 h
    unfold CHIP_8.divXY at h
    split at h
    · exact absurd h (by simp)
    · dsimp only at h
      injection h with h
      subst h
      dsimp only
      rw [if_pos rfl]

/-- Witness for the amended C5 at registers 0 and 1 of `c5wvm`. -/
theorem chip8_vf_flag_spec_witness :
    ((c5wvm.addXY 0 1).V 0xF = 0 ∨ (c5wvm.addXY 0 1).V 0xF = 1)
    ∧ ((c5wvm.addIX 0).V 0xF = 0 ∨ (c5wvm.addIX 0).V 0xF = 1)
    ∧ ((c5wvm.shr 0).V 0xF = 0 ∨ (c5wvm.shr 0).V 0xF = 1)
    ∧ ((0 : Nat) ≠ 0xF → ((c5wvm.subXY 0 1).V 0xF = 0 ∨ (c5wvm.subXY 0 1).V 0xF = 1))
    ∧ ((0 : Nat) ≠ 0xF → ((c5wvm.subYX 0 1).V 0xF = 0 ∨ (c5wvm.subYX 0 1).V 0xF = 1))
    ∧ ((0 : Nat) ≠ 0xF → ((c5wvm.shl 0).V 0xF = 0 ∨ (c5wvm.shl 0).V 0xF = 1))
    ∧ ((0 : Nat) ≠ 0xF →
        (c5wvm.mulXY 0 1).V 0xF = ((c5wvm.V 0 * c5wvm.V 1) >>> 8) &&& 0xFF)
    ∧ (∀ vm1, c5wvm.divXY 0 1 = some vm1 → vm1.V 0xF = c5wvm.V 0 % c5wvm.V 1) :=
  chip8_vf_flag_spec c5wvm 0 1
    (fun i => by
      show (if i = 0 then (200 : Nat) else if i = 1 then 100 else 0) < 256
      split_ifs <;> norm_num)

/-- Counterexample to C5 as stated: after the reachable `MUL V0,V1`
step with V0 = V1 = 0xFF, VF holds the product's high byte 254, which
is not in {0, 1}. -/
theorem chip8_vf_flag_cex :
    Reachable c5vm3 ∧ c5vm3.V 0xF = 254
    ∧ ¬(c5vm3.V 0xF = 0 ∨ c5vm3.V 0xF = 1) := by
  have h0 : CHIP_8.LoadROM c5prog false 0 = some c5vm0 := rfl
  have h1 : CHIP_8.Step 0 0 c5vm0 = some (c5vm1, Outcome.ok) := rfl
  have h2 : CHIP_8.Step 0 0 c5vm1 = some (c5vm2, Outcome.ok) := rfl
  have h3 : CHIP_8.Step 0 0 c5vm2 = some (c5vm3, Outcome.ok) := rfl
  have r0 : Reachable c5vm0 := Reachable.load c5prog false 0 c5vm0 (by decide) h0
  have r1 : Reachable c5vm1 := Reachable.step 0 0 c5vm0 (c5vm1, Outcome.ok) r0 h1
  have r2 : Reachable c5vm2 := Reachable.step 0 0 c5vm1 (c5vm2, Outcome.ok) r1 h2
  have r3 : Reachable c5vm3 := Reachable.step 0 0 c5vm2 (c5vm3, Outcome.ok) r2 h3
  exact ⟨r3, by decide, by decide⟩

end ClaimTheorems3

section ClaimTheorems4

/-- Claim C4, amended: for every state reachable from a load by Step
and Reset, the program counter is bounded by 0x10FE = 0xFFF + 0xFF (the
largest value `JP V0,NNN` can produce); `PC < 0x1000` is not an
invariant. -/
theorem chip8_pc_bound (vm : CHIP_8) (h : Reachable vm) : vm.PC ≤ 0x10FE :=
  (reachable_inv vm h).1

/-- Witness for the amended C4 at the freshly loaded `c4vm0`. -/
theorem chip8_pc_bound_witness : c4vm0.PC ≤ 0x10FE :=
  chip8_pc_bound c4vm0 (Reachable.load c4prog false 0 c4vm0 (by decide) rfl)

/-- Counterexample to C4 as stated: two steps after loading `c4prog`
(`LD V0,#FF` then `JP V0,#FFF`) the reachable PC is
0xFFF + 0xFF = 0x10FE, violating `PC < 0x1000`. -/
theorem chip8_pc_bound_cex :
    Reachable c4vm2 ∧ c4vm2.PC = 0x10FE ∧ ¬(c4vm2.PC < 0x1000) := by
  have h0 : CHIP_8.LoadROM c4prog false 0 = some c4vm0 := rfl
  have h1 : CHIP_8.Step 0 0 c4vm0 = some (c4vm1, Outcome.ok) := rfl
  have h2 : CHIP_8.Step 0 0 c4vm1 = some (c4vm2, Outcome.ok) := rfl
  have r0 : Reachable c4vm0 := Reachable.load c4prog false 0 c4vm0 (by decide) h0
  have r1 : Reachable c4vm1 := Reachable.step 0 0 c4vm0 (c4vm1, Outcome.ok) r0 h1
  have r2 : Reachable c4vm2 := Reachable.step 0 0 c4vm1 (c4vm2, Outcome.ok) r1 h2
  exact ⟨r2, by decide, by decide⟩

end ClaimTheorems4

section ClaimTheorems5

/-- When not waiting and the instruction executes, `Step` consists of
the cycle increment followed by the breakpoint check of the source. -/
lemma step_eq_of_ok (now : Int) (rnd : Nat) (vm vm1 : CHIP_8)
    (hW : vm.W = none) (hE : CHIP_8.execInst now rnd vm = some (.ok vm1)) :
    CHIP_8.Step now rnd vm =
      (let vm2 : CHIP_8 := { vm1 with Cycles := vm1.Cycles + 1 }
       match vm2.Breakpoints vm2.PC with
       | some b =>
         if b.Conditional = false ∨ vm2.V 0xF ≠ 0 then
           some (if b.Once then vm2.removeBreakpoint vm2.PC else vm2,
             Outcome.brk b)
         else some (vm2, Outcome.ok)
       | none => some (vm2, Outcome.ok)) := by
  unfold CHIP_8.Step
  rw [hW, hE]
  rfl

/-- Claim C1: after an instruction executes, a breakpoint entry at the
new PC fires exactly when it is unconditional or VF ≠ 0 — it is first
deleted when its `once` flag is set and is returned as the result of
`Step` — and in every other case `Step` returns ok with the breakpoint
map untouched (instruction execution itself never modifies the map). -/
theorem chip8_step_breakpoint_spec (now : Int) (rnd : Nat) (vm vm1 : CHIP_8)
    (hW : vm.W = none) (hE : CHIP_8.execInst now rnd vm = some (.ok vm1)) :
    (∀ b, vm1.Breakpoints vm1.PC = some b →
      ((b.Conditional = false ∨ vm1.V 0xF ≠ 0) →
        CHIP_8.Step now rnd vm = some
          ((if b.Once
            then CHIP_8.removeBreakpoint { vm1 with Cycles := vm1.Cycles + 1 } vm1.PC
            else { vm1 with Cycles := vm1.Cycles + 1 }), Outcome.brk b))
      ∧ (b.Conditional = true ∧ vm1.V 0xF = 0 →
        CHIP_8.Step now rnd vm =
          some ({ vm1 with Cycles := vm1.Cycles + 1 }, Outcome.ok)))
    ∧ (vm1.Breakpoints vm1.PC = none →
        CHIP_8.Step now rnd vm =
          some ({ vm1 with Cycles := vm1.Cycles + 1 }, Outcome.ok))
    ∧ vm1.Breakpoints = vm.Breakpoints := by
  have hstep := step_eq_of_ok now rnd vm vm1 hW hE
  have hbp := (CHIP_8.execInst_props now rnd vm _ hE).1
  refine ⟨fun b hb => ⟨fun hcond => ?_, fun hcond => ?_⟩, fun hb => ?_, hbp⟩
  · rw [hstep]
    show (match vm1.Breakpoints vm1.PC with
      | some b =>
        if b.Conditional = false ∨ vm1.V 0xF ≠ 0 then
          some (if b.Once
            then CHIP_8.removeBreakpoint { vm1 with Cycles := vm1.Cycles + 1 } vm1.PC
            else { vm1 with Cycles := vm1.Cycles + 1 }, Outcome.brk b)
        else some ({ vm1 with Cycles := vm1.Cycles + 1 }, Outcome.ok)
      | none => some ({ vm1 with Cycles := vm1.Cycles + 1 }, Outcome.ok)) = _
    rw [hb]
    dsimp only
    rw [if_pos hcond]
  · rw [hstep]
    show (match vm1.Breakpoints vm1.PC with
      | some b =>
        if b.Conditional = false ∨ vm1.V 0xF ≠ 0 then
          some (if b.Once
            then CHIP_8.removeBreakpoint { vm1 with Cycles := vm1.Cycles + 1 } vm1.PC
            else { vm1 with Cycles := vm1.Cycles + 1 }, Outcome.brk b)
        else some ({ vm1 with Cycles := vm1.Cycles + 1 }, Outcome.ok)
      | none => some ({ vm1 with Cycles := vm1.Cycles + 1 }, Outcome.ok)) = _
    rw [hb]
    dsimp only
    rw [if_neg (by simp [hcond.1, hcond.2])]
  · rw [hstep]
    show (match vm1.Breakpoints vm1.PC with
      | some b =>
        if b.Conditional = false ∨ vm1.V 0xF ≠ 0 then
          some (if b.Once
            then CHIP_8.removeBreakpoint { vm1 with Cycles := vm1.Cycles + 1 } vm1.PC
            else { vm1 with Cycles := vm1.Cycles + 1 }, Outcome.brk b)
        else some ({ vm1 with Cycles := vm1.Cycles + 1 }, Outcome.ok)
      | none => some ({ vm1 with Cycles := vm1.Cycles + 1 }, Outcome.ok)) = _
    rw [hb]

/-- Witness for C1: on `c1vm` the once-breakpoint at the new PC fires,
is removed, and is returned by `Step`. -/
theorem chip8_step_breakpoint_spec_witness :
    CHIP_8.Step 0 0 c1vm =
      some (CHIP_8.removeBreakpoint { c1vm1 with Cycles := c1vm1.Cycles + 1 } c1vm1.PC,
        Outcome.brk c1bp) := by
  have h := (chip8_step_breakpoint_spec 0 0 c1vm c1vm1 rfl rfl).1 c1bp rfl
  exact h.1 (Or.inl rfl)

end ClaimTheorems5

section ClaimTheorems6

/-- Claim C10: for x ≥ 8, `LD Vx,R` (FX85) slices the 8-byte R array
out of range and panics, so `Step` is not total on these decodable
opcodes; `LD R,Vx` (FX75) with x ≥ 8 does not fail and silently copies
only V0..V7 into R0..R7 — no `x < 8` check exists in the VM. -/
theorem chip8_readR_panic_spec (now : Int) (rnd : Nat) (vm : CHIP_8) (x : Nat)
    (hx8 : 8 ≤ x) (hx : x ≤ 15) (hW : vm.W = none) (hpc : vm.PC + 1 < 0x1000)
    (hm1 : vm.Memory vm.PC = 0xF0 ||| x)
    (hm2 : vm.Memory (vm.PC + 1) = 0x85) :
    vm.readR x = none
    ∧ CHIP_8.Step now rnd vm = none
    ∧ ((vm.storeR x).R = fun i => if i < 8 then vm.V i else vm.R i) := by
  refine ⟨?_, ?_, ?_⟩
  · unfold CHIP_8.readR
    rw [if_neg (by omega)]
  · unfold CHIP_8.Step
    rw [hW]
    show (match CHIP_8.execInst now rnd vm with
      | none => none
      | some (ExecResult.invalid vm1 inst) => some (vm1, Outcome.invalidOpcode inst)
      | some (ExecResult.ok vm1) =>
        let vm2 : CHIP_8 := { vm1 with Cycles := vm1.Cycles + 1 }
        match vm2.Breakpoints vm2.PC with
        | some b =>
          if b.Conditional = false ∨ vm2.V 0xF ≠ 0 then
            some (if b.Once then vm2.removeBreakpoint vm2.PC else vm2,
              Outcome.brk b)
          else some (vm2, Outcome.ok)
        | none => some (vm2, Outcome.ok)) = none
    have hE : CHIP_8.execInst now rnd vm = none := by
      unfold CHIP_8.execInst CHIP_8.fetch
      rw [if_pos hpc]
      show CHIP_8.decodeExec now rnd { vm with PC := vm.PC + 2 }
        ((vm.Memory vm.PC <<< 8) ||| vm.Memory (vm.PC + 1)) = none
      rw [hm1, hm2]
      interval_cases x <;> rfl
    rw [hE]
  · funext i
    show (if i < min 8 (x + 1) then vm.V i else vm.R i) = _
    rw [show min 8 (x + 1) = 8 by omega]

/-- Witness for C10 at `x = 8` on `c10vm`: `Step` panics. -/
theorem chip8_readR_panic_spec_witness :
    c10vm.readR 8 = none
    ∧ CHIP_8.Step 0 0 c10vm = none
    ∧ ((c10vm.storeR 8).R = fun i => if i < 8 then c10vm.V i else c10vm.R i) :=
  chip8_readR_panic_spec 0 0 c10vm 8 (by norm_num) (by norm_num) rfl
    (by decide) (by decide) (by decide)

end ClaimTheorems6
